import Mathlib

/-!
Verification of kubetest: the scale trigger, the pod start-up time, the
ownership look-up, the scan of all pods and the pod watch.

A shallow embedding of `kubetest3/controller3.go` and
`kubetest3/running_time/controller3.go`.

* Objects returned by the dynamic client are `unstructured.Unstructured`
  values: their `Object` field is a `map[string]interface{}` holding JSON.
  They are embedded as `JSON` trees; a Go map is an association list read with
  `List.lookup` (keys of a Go map are distinct).
* A Go call either returns, or ends the process through `log.Fatalf`, or
  panics (a failed one-result type assertion, a nil `error` dereferenced).
  `Outcome` keeps the three apart.
* What a run does to the outside world is recorded in a list of `Effect`s:
  the lines written to standard output, the update requests sent to the API
  server, the release of the watch, and one entry per call of
  `getPodStartUpTime` with its arguments.
* The API server is a `Client`: the answers of `Get`, `Update`, `List` and
  `Watch` as functions of the request.
* The accessors of `k8s.io/apimachinery/.../unstructured` and the methods of
  package `time` are embedded from their library sources; `time.Parse` and
  `time.Now` are parameters (`timeParse`, `now`).
-/

set_option autoImplicit false

namespace Kubetest

/-! ## Unstructured content -/

/-- JSON held in the `Object` map of an `unstructured.Unstructured`: the dynamic
types an `interface{}` can have there. -/
inductive JSON where
  | null
  | bool (b : Bool)
  | int64 (n : Int)
  | float64 (bits : Nat)
  | string (s : String)
  | slice (items : List JSON)
  | map (fields : List (String × JSON))

/-- The `Object` field of an `unstructured.Unstructured`. -/
abbrev Object := List (String × JSON)

/-- Errors as Go values, by the place that makes them. -/
inductive GoError where
  /-- an error returned by a client-go call (`Get`, `Update`, `List`, `Watch`) -/
  | client (msg : String)
  /-- the error of an `unstructured.Nested*` accessor that met a value of the
  wrong type on the given path -/
  | accessor (path : List String)
  /-- a `*time.ParseError` for the given value -/
  | parse (value : String)
  /-- the value of `fmt.Errorf` with the formatted message -/
  | errorf (msg : String)
  deriving DecidableEq

/-- How a Go call ends. -/
inductive Outcome (α : Type) where
  /-- the call returns -/
  | ret (a : α)
  /-- `log.Fatalf(format, err.Error())`: the message is logged and the process
  exits with status 1; nothing is returned to the caller -/
  | fatal (format : String) (err : Option GoError)
  /-- a run-time panic -/
  | panic (msg : String)

/-- Index expression `m[key]` on a `map[string]string`: the zero value `""` when
the key is absent (also on a nil map). -/
def mapIndex (m : List (String × String)) (key : String) : String :=
  (m.lookup key).getD ""

/-- Assignment `m[key] = value` on a `map[string]interface{}`. -/
def mapAssign : Object → String → JSON → Object
  | [], key, value => [(key, value)]
  | (k, v) :: rest, key, value =>
    if key == k then (k, value) :: rest else (k, v) :: mapAssign rest key value

/-- Result triple `(value, found, err)` of the `unstructured.Nested*` accessors. -/
structure Nested (α : Type) where
  val : α
  found : Bool
  err : Option GoError

/-- Loop of `unstructured.NestedFieldNoCopy`; `seen` is the path walked so far. -/
def NestedFieldNoCopy.go : JSON → List String → List String → Nested JSON
  | val, _, [] => ⟨val, true, none⟩
  | .null, _, _ :: _ => ⟨.null, false, none⟩
  | .map m, seen, field :: fields =>
    match m.lookup field with
    | some v => NestedFieldNoCopy.go v (seen ++ [field]) fields
    | none => ⟨.null, false, none⟩
  | _, seen, field :: _ => ⟨.null, false, some (.accessor (seen ++ [field]))⟩

/-- Model of `unstructured.NestedFieldNoCopy(obj, fields...)`. -/
def NestedFieldNoCopy (obj : Object) (fields : List String) : Nested JSON :=
  NestedFieldNoCopy.go (.map obj) [] fields

/-- Model of `unstructured.NestedSlice(obj, fields...)`. -/
def NestedSlice (obj : Object) (fields : List String) : Nested (List JSON) :=
  let r := NestedFieldNoCopy obj fields
  if !r.found || r.err.isSome then ⟨[], r.found, r.err⟩
  else match r.val with
    | .slice items => ⟨items, true, none⟩
    | _ => ⟨[], false, some (.accessor fields)⟩

/-- Model of `unstructured.NestedString(obj, fields...)`. -/
def NestedString (obj : Object) (fields : List String) : Nested String :=
  let r := NestedFieldNoCopy obj fields
  if !r.found || r.err.isSome then ⟨"", r.found, r.err⟩
  else match r.val with
    | .string s => ⟨s, true, none⟩
    | _ => ⟨"", false, some (.accessor fields)⟩

/-- Model of `unstructured.NestedInt64(obj, fields...)`. -/
def NestedInt64 (obj : Object) (fields : List String) : Nested Int :=
  let r := NestedFieldNoCopy obj fields
  if !r.found || r.err.isSome then ⟨0, r.found, r.err⟩
  else match r.val with
    | .int64 n => ⟨n, true, none⟩
    | _ => ⟨0, false, some (.accessor fields)⟩

/-- Copy loop of `unstructured.NestedStringMap`: `none` as soon as a value is not
a string. -/
def NestedStringMap.copy : List (String × JSON) → Option (List (String × String))
  | [] => some []
  | (k, .string s) :: rest => (NestedStringMap.copy rest).map (fun m => (k, s) :: m)
  | _ :: _ => none

/-- Model of `unstructured.NestedStringMap(obj, fields...)`; the nil map is `[]`. -/
def NestedStringMap (obj : Object) (fields : List String) : Nested (List (String × String)) :=
  let r := NestedFieldNoCopy obj fields
  if !r.found || r.err.isSome then ⟨[], r.found, r.err⟩
  else match r.val with
    | .map m =>
      match NestedStringMap.copy m with
      | some strMap => ⟨strMap, true, none⟩
      | none => ⟨[], false, some (.accessor fields)⟩
    | _ => ⟨[], false, some (.accessor fields)⟩

/-- Model of `unstructured.SetNestedField(obj, value, fields...)`: the updated
map, or the error when a value on the path is not a map. -/
def SetNestedField : Object → JSON → List String → Except GoError Object
  | obj, _, [] => .ok obj
  | obj, value, [field] => .ok (mapAssign obj field value)
  | obj, value, field :: f :: fields =>
    match obj.lookup field with
    | some (.map valMap) =>
      match SetNestedField valMap value (f :: fields) with
      | .ok m => .ok (mapAssign obj field (.map m))
      | .error e => .error e
    | some _ => .error (.accessor [field])
    | none =>
      match SetNestedField [] value (f :: fields) with
      | .ok m => .ok (mapAssign obj field (.map m))
      | .error e => .error e

/-- Helper `getNestedString` of the unstructured package: `""` unless the string
is found. -/
def getNestedString (obj : Object) (fields : List String) : String :=
  let r := NestedString obj fields
  if !r.found || r.err.isSome then "" else r.val

/-- Method `(*Unstructured).GetName`. -/
def GetName (u : Object) : String := getNestedString u ["metadata", "name"]

/-- Method `(*Unstructured).GetNamespace`. -/
def GetNamespace (u : Object) : String := getNestedString u ["metadata", "namespace"]

/-- Method `(*Unstructured).GetLabels`. -/
def GetLabels (u : Object) : List (String × String) :=
  (NestedStringMap u ["metadata", "labels"]).val

/-- Comparison `v == "text"` of an `interface{}` read from a map (`none`: the key
is absent, the nil interface) with a string constant: true exactly for a string
of that value. -/
def ifaceEqString : Option JSON → String → Bool
  | some (.string s), text => s == text
  | _, _ => false

/-- Increment `replicas++` of an `int64`: two's complement wrap-around. -/
def incInt64 (n : Int) : Int := (n + 1 + 2 ^ 63) % 2 ^ 64 - 2 ^ 63

/-! ## Time -/

/-- An instant (`time.Time`), as nanoseconds since the Unix epoch. -/
structure Time where
  unixNano : Int
  deriving DecidableEq

/-- Largest `time.Duration`, an `int64` count of nanoseconds. -/
def maxDuration : Int := 2 ^ 63 - 1

/-- Smallest `time.Duration`. -/
def minDuration : Int := -(2 ^ 63)

/-- Method `t.Sub(u)`: the duration `t - u`, or the largest (smallest) duration
when `t - u` does not fit an `int64` of nanoseconds. -/
def Time.Sub (t u : Time) : Int :=
  let d := t.unixNano - u.unixNano
  if maxDuration < d then maxDuration
  else if d < minDuration then minDuration
  else d

/-! ## The API server and the effects of a run -/

/-- A `schema.GroupVersionResource`. -/
structure GroupVersionResource where
  Group : String
  Version : String
  Resource : String
  deriving DecidableEq

/-- Kinds of watch events (`watch.EventType`). -/
inductive EventType where
  | Added | Modified | Deleted | Bookmark | Error
  deriving DecidableEq

/-- The `Object` of a watch event, a `runtime.Object`: an
`*unstructured.Unstructured`, or a value of another type (the `*metav1.Status`
of an error event). -/
inductive RuntimeObject where
  | unstructured (obj : Object)
  | status (message : String)

/-- A `watch.Event`. -/
structure WatchEvent where
  type : EventType
  object : RuntimeObject

/-- The dynamic client: what the API server answers to each request, an error
being given by its message. `watch` gives the events the result channel
delivers before it is closed. -/
structure Client where
  get : GroupVersionResource → String → String → Except String Object
  update : GroupVersionResource → String → Object → Except String Object
  list : GroupVersionResource → String → Except String (List Object)
  watch : GroupVersionResource → String → Except String (List WatchEvent)

/-- Observable steps of a run, in order. -/
inductive Effect where
  /-- an `Update` request sent to the API server with this object -/
  | update (resource : GroupVersionResource) (ns : String) (obj : Object)
  /-- controller3.go:49, `fmt.Println("increased replicas to", replicas)` -/
  | printIncreased (replicas : Int)
  /-- controller3.go:206, `fmt.Printf("pod created successfully")` -/
  | printPodCreated
  /-- controller3.go:225, `fmt.Println("Owner References: <not found>")` -/
  | printOwnerRefsNotFound
  /-- controller3.go:233, the message about a ReplicaSet whose deployment name
  could not be got -/
  | printOwnerError (replicaSetName : String) (err : GoError)
  /-- controller3.go:136, the printed time difference -/
  | printTimeDiff (duration : Int)
  /-- controller3.go:240, the call `getPodStartUpTime(dynamicClient,
  podNamespace, podDeploymentName, podName)` with its arguments -/
  | callGetPodStartUpTime (podNamespace podDeploymentName podName : String)
  /-- running_time/controller3.go:68, the new replica count and the time -/
  | printIncreasedAt (replicas : Int) (now : Time)
  /-- running_time/controller3.go:87-91, an observation record: `POD_NAME`,
  `TIME`, `PHASE` and the two closing lines -/
  | printObservation (podName : String) (time : Time) (phase : String)
  /-- running_time/controller3.go:94-95, the lines saying the pod succeeded -/
  | printSucceeded
  /-- the deferred `watcher.Stop()` -/
  | watcherStop

/-- A run of a Go function: its effects in order and how it ends. -/
structure Run (α : Type) where
  effects : List Effect
  res : Outcome α

/-- A run that returns `a` at once. -/
def Run.ret {α : Type} (a : α) : Run α := ⟨[], .ret a⟩

/-- A run that ends in `log.Fatalf(format, err.Error())`. -/
def Run.fatal {α : Type} (format : String) (err : Option GoError) : Run α :=
  ⟨[], .fatal format err⟩

/-- A run that panics. -/
def Run.panic {α : Type} (msg : String) : Run α := ⟨[], .panic msg⟩

/-- A run with one effect. -/
def Run.emit (e : Effect) : Run Unit := ⟨[e], .ret ()⟩

/-- Sequencing: `f` runs only when `x` returns. -/
def Run.bind {α β : Type} (x : Run α) (f : α → Run β) : Run β :=
  match x.res with
  | .ret a => ⟨x.effects ++ (f a).effects, (f a).res⟩
  | .fatal format err => ⟨x.effects, .fatal format err⟩
  | .panic msg => ⟨x.effects, .panic msg⟩

/-- Message of the panic of `err.Error()` on a nil `error`. -/
def nilError : String := "invalid memory address or nil pointer dereference"

/-- Message of the panic of a failed type assertion `x.(T)`. -/
def badAssertion : String := "interface conversion"

/-! ## kubetest3/controller3.go -/

/-- The `deployments` resource of group `apps`. -/
def deploymentRes : GroupVersionResource := ⟨"apps", "v1", "deployments"⟩

/-- The `pods` resource of the core group. -/
def podResource : GroupVersionResource := ⟨"", "v1", "pods"⟩

/-- The `replicasets` resource of group `apps`. -/
def replicaSetResource : GroupVersionResource := ⟨"apps", "v1", "replicasets"⟩

/-- Function `createAPod` (controller3.go:22-52). -/
def createAPod (dynamicClient : Client) (ns deploymentName : String) : Run Bool :=
  match dynamicClient.get deploymentRes ns deploymentName with
  | .error err => Run.fatal "error getting deployment: %s\n" (some (.client err))
  | .ok deployment =>
    match deployment.lookup "spec" with
    | some (.map spec) =>
      match spec.lookup "replicas" with
      | some (.int64 n) =>
        let replicas := incInt64 n
        let deployment :=
          mapAssign deployment "spec" (.map (mapAssign spec "replicas" (.int64 replicas)))
        Run.bind (Run.emit (.update deploymentRes ns deployment)) fun _ =>
        match dynamicClient.update deploymentRes ns deployment with
        | .error err => Run.fatal "error updating: %s\n" (some (.client err))
        | .ok _ =>
          Run.bind (Run.emit (.printIncreased replicas)) fun _ =>
          Run.ret true
      | _ => Run.panic badAssertion
    | _ => Run.panic badAssertion

/-- Function `getPods` (controller3.go:66-77): the items of the listed pods. -/
def getPods (dynamicClient : Client) (ns : String) : Run (List Object) :=
  match dynamicClient.list podResource ns with
  | .error err => Run.fatal "error getting pods: %s\n" (some (.client err))
  | .ok podList => Run.ret podList

/-- The two pointers `podScheduledTime, podReadyTime` of `getPodStartUpTime`,
`none` for nil. -/
structure Milestones where
  podScheduledTime : Option Time
  podReadyTime : Option Time

/-- The loop over the conditions of `getPodStartUpTime` (controller3.go:99-123).
`timeParse` is `time.Parse(time.RFC3339, ·)`, `none` for a parse error. -/
def getPodStartUpTime.scan (timeParse : String → Option Time) :
    List JSON → Milestones → Outcome Milestones
  | [], m => .ret m
  | condition :: rest, m =>
    match condition with
    | .map conditionMap =>
      match conditionMap.lookup "type" with
      | some (.string conditionType) =>
        match conditionMap.lookup "lastTransitionTime" with
        | some (.string lastTransitionTime) =>
          match timeParse lastTransitionTime with
          | none => .fatal "error parsing time: %s\n" (some (.parse lastTransitionTime))
          | some parsedTime =>
            let m1 : Milestones :=
              if conditionType == "PodScheduled" then ⟨some parsedTime, m.podReadyTime⟩ else m
            let m2 : Milestones :=
              if conditionType == "Ready" then ⟨m1.podScheduledTime, some parsedTime⟩ else m1
            getPodStartUpTime.scan timeParse rest m2
        | _ => getPodStartUpTime.scan timeParse rest m
      | _ => getPodStartUpTime.scan timeParse rest m
    | _ => .panic badAssertion

/-- Function `getPodStartUpTime` (controller3.go:79-139): the returned pair is
`(duration, err)`. -/
def getPodStartUpTime (timeParse : String → Option Time) (dynamicClient : Client)
    (ns deploymentName podName : String) : Run (Int × Option GoError) :=
  let _ := deploymentName
  match dynamicClient.get podResource ns podName with
  | .error err => Run.fatal "error getting pod: %s\n" (some (.client err))
  | .ok pod =>
    let r := NestedSlice pod ["status", "conditions"]
    if r.err.isSome || !r.found then
      match r.err with
      | some err => Run.fatal "error retrieving pod conditions: %s\n" (some err)
      | none => Run.panic nilError
    else
      match getPodStartUpTime.scan timeParse r.val ⟨none, none⟩ with
      | .fatal format err => Run.fatal format err
      | .panic msg => Run.panic msg
      | .ret m =>
        match m.podScheduledTime with
        | none => Run.fatal "pod has no PodScheduled condition" none
        | some podScheduledTime =>
          match m.podReadyTime with
          | none => Run.fatal "pod has no Ready condition" none
          | some podReadyTime =>
            let duration := podReadyTime.Sub podScheduledTime
            Run.bind (Run.emit (.printTimeDiff duration)) fun _ =>
            Run.ret (duration, none)

/-- The loop over the owner references of `getDeploymentFromReplicaSet`
(controller3.go:157-164). -/
def getDeploymentFromReplicaSet.scan (replicaSetName : String) :
    List JSON → Outcome (String × Option GoError)
  | [] =>
    .ret ("", some (.errorf
      ("deployment owner reference not found for ReplicaSet " ++ replicaSetName)))
  | ownerReference :: rest =>
    match ownerReference with
    | .map ownerRefMap =>
      if ifaceEqString (ownerRefMap.lookup "kind") "Deployment" then
        match ownerRefMap.lookup "name" with
        | some (.string name) => .ret (name, none)
        | _ => .panic badAssertion
      else getDeploymentFromReplicaSet.scan replicaSetName rest
    | _ => .panic badAssertion

/-- Function `getDeploymentFromReplicaSet` (controller3.go:141-165): the returned
pair is `(name, err)`. -/
def getDeploymentFromReplicaSet (dynamicClient : Client) (ns replicaSetName : String) :
    Outcome (String × Option GoError) :=
  match dynamicClient.get replicaSetResource ns replicaSetName with
  | .error err => .ret ("", some (.client err))
  | .ok replicaSet =>
    let r := NestedSlice replicaSet ["metadata", "ownerReferences"]
    if r.err.isSome || !r.found then
      .ret ("", some (.errorf ("owner references not found for ReplicaSet " ++ replicaSetName)))
    else getDeploymentFromReplicaSet.scan replicaSetName r.val

/-- A call of a function without effects, as a run. -/
def Run.ofOutcome {α : Type} (o : Outcome α) : Run α := ⟨[], o⟩

/-- The loop over a pod's owner references in `main` (controller3.go:227-237):
the value left in `podDeploymentName`. -/
def main.owner (dynamicClient : Client) (podNamespace : String) : List JSON → Run String
  | [] => Run.ret ""
  | ownerReference :: rest =>
    match ownerReference with
    | .map ownerRefMap =>
      if ifaceEqString (ownerRefMap.lookup "kind") "ReplicaSet" then
        match ownerRefMap.lookup "name" with
        | some (.string replicaSetName) =>
          Run.bind (Run.ofOutcome
            (getDeploymentFromReplicaSet dynamicClient podNamespace replicaSetName)) fun r =>
          match r.2 with
          | some err =>
            Run.bind (Run.emit (.printOwnerError replicaSetName err)) fun _ => Run.ret r.1
          | none => Run.ret r.1
        | _ => Run.panic badAssertion
      else main.owner dynamicClient podNamespace rest
    | _ => Run.panic badAssertion

/-- Lines 221-238 of `main` for one pod: the value of `podDeploymentName` when
`getPodStartUpTime` is called. -/
def main.podDeploymentName (dynamicClient : Client) (pod : Object) : Run String :=
  let r := NestedSlice pod ["metadata", "ownerReferences"]
  if r.err.isSome || !r.found then
    Run.bind (Run.emit .printOwnerRefsNotFound) fun _ => Run.ret ""
  else main.owner dynamicClient (GetNamespace pod) r.val

/-- The loop over the listed pods in `main` (controller3.go:217-242). -/
def main.pods (timeParse : String → Option Time) (dynamicClient : Client) :
    List Object → Run Unit
  | [] => Run.ret ()
  | pod :: rest =>
    let podName := GetName pod
    let podNamespace := GetNamespace pod
    Run.bind (main.podDeploymentName dynamicClient pod) fun podDeploymentName =>
    Run.bind (Run.emit (.callGetPodStartUpTime podNamespace podDeploymentName podName)) fun _ =>
    Run.bind (getPodStartUpTime timeParse dynamicClient podNamespace podDeploymentName podName)
      fun _ =>
    main.pods timeParse dynamicClient rest

/-- Function `main` of controller3.go from line 200 on, the clients being built:
the scale-up, then the scan of all pods of the namespace. -/
def main (timeParse : String → Option Time) (dynamicClient : Client) : Run Unit :=
  let ns := "default"
  let deploymentName := "efficientdetnet-deployment"
  Run.bind (createAPod dynamicClient ns deploymentName) fun isPodCreated =>
  Run.bind (if isPodCreated then Run.emit .printPodCreated else Run.ret ()) fun _ =>
  Run.bind (getPods dynamicClient ns) fun podList =>
  main.pods timeParse dynamicClient podList

/-! ## kubetest3/running_time/controller3.go -/

namespace RunningTime

/-- State of the loop over the watch channel when it is left. -/
structure Watched where
  /-- what was printed, in order -/
  effects : List Effect
  /-- how the loop ends: it is left (`break`, or the channel is closed), or a
  type assertion panics -/
  res : Outcome Unit
  /-- events never taken from the channel -/
  unread : List WatchEvent
  /-- number of calls of `time.Now` made so far -/
  clock : Nat

/-- Adds an effect in front of the effects of the rest of the loop. -/
def Watched.after (e : Effect) (w : Watched) : Watched :=
  { w with effects := e :: w.effects }

/-- The loop `for event := range watcher.ResultChan()` of `main`
(running_time/controller3.go:78-100) on the events the channel delivers;
`now k` is the value of the call number `k` of `time.Now`. -/
def main.watch (deploymentName : String) (now : Nat → Time) :
    List WatchEvent → Nat → Watched
  | [], k => ⟨[], .ret (), [], k⟩
  | event :: rest, k =>
    if event.type = .Added ∨ event.type = .Modified then
      match event.object with
      | .unstructured pod =>
        if mapIndex (GetLabels pod) "app" = deploymentName then
          let r := NestedString pod ["status", "phase"]
          if r.err.isSome || !r.found then main.watch deploymentName now rest k
          else
            let record := Effect.printObservation (GetName pod) (now k) r.val
            if r.val = "Succeeded" then
              ⟨[record, .printSucceeded], .ret (), rest, k + 1⟩
            else (main.watch deploymentName now rest (k + 1)).after record
        else main.watch deploymentName now rest k
      | _ => ⟨[], .panic badAssertion, rest, k⟩
    else main.watch deploymentName now rest k

/-- The name of the deployment `main` scales and watches. -/
def deploymentName : String := "efficientdetnet-deployment"

/-- Function `main` of running_time/controller3.go from line 43 on, the client
being built: the scale-up, then the watch. The deferred `watcher.Stop()` runs
when the loop is left and when it panics. -/
def main (now : Nat → Time) (dynamicClient : Client) : Run Unit :=
  let ns := "default"
  match dynamicClient.get deploymentRes ns deploymentName with
  | .error err => Run.fatal "Failed to get deployment: %s\n" (some (.client err))
  | .ok deployment =>
    let r := NestedInt64 deployment ["spec", "replicas"]
    if r.err.isSome || !r.found then
      match r.err with
      | some err => Run.fatal "Failed to get replicas: %s\n" (some err)
      | none => Run.panic nilError
    else
      let replicas := incInt64 r.val
      match SetNestedField deployment (.int64 replicas) ["spec", "replicas"] with
      | .error err => Run.fatal "Failed to set replicas: %s\n" (some err)
      | .ok deployment =>
        Run.bind (Run.emit (.update deploymentRes ns deployment)) fun _ =>
        match dynamicClient.update deploymentRes ns deployment with
        | .error err => Run.fatal "Failed to update deployment: %s\n" (some (.client err))
        | .ok _ =>
          Run.bind (Run.emit (.printIncreasedAt replicas (now 0))) fun _ =>
          match dynamicClient.watch podResource ns with
          | .error err => Run.fatal "Error setting up watch: %s\n" (some (.client err))
          | .ok events =>
            let w := main.watch deploymentName now events 1
            ⟨w.effects ++ [.watcherStop], w.res⟩

end RunningTime

/-! ## A concrete reading of timestamps

The functions above take `time.Parse(time.RFC3339, ·)` as a parameter.
`parseUTC` reads the timestamps the API server writes, `YYYY-MM-DDTHH:MM:SSZ`,
to the instant `time.Parse` gives them, and rejects every other string, among
them every string that `time.Parse` rejects. -/

/-- The value of a decimal digit. -/
def digit (c : Char) : Option Nat :=
  if c.isDigit then some (c.toNat - 48) else none

/-- The number written by two digits. -/
def twoDigits (a b : Char) : Option Nat :=
  match digit a, digit b with
  | some x, some y => some (10 * x + y)
  | _, _ => none

/-- Whether a year of the Gregorian calendar is a leap year. -/
def isLeap (year : Nat) : Bool :=
  year % 4 == 0 && (year % 100 != 0 || year % 400 == 0)

/-- Days of a month. -/
def daysIn (month year : Nat) : Nat :=
  if month == 2 then (if isLeap year then 29 else 28)
  else if month == 4 || month == 6 || month == 9 || month == 11 then 30
  else 31

/-- Days from 1970-01-01 to a date of the Gregorian calendar. -/
def daysFromCivil (year month day : Nat) : Int :=
  let y := if month ≤ 2 then year + 399 else year + 400
  let yoe := y % 400
  let mp := (month + 9) % 12
  let doy := (153 * mp + 2) / 5 + day - 1
  let doe := yoe * 365 + yoe / 4 - yoe / 100 + doy
  ((y / 400 * 146097 + doe : Nat) : Int) - 865565

/-- Reading of a timestamp `YYYY-MM-DDTHH:MM:SSZ`. -/
def parseUTC (value : String) : Option Time :=
  match value.toList with
  | [y1, y2, y3, y4, '-', m1, m2, '-', d1, d2, 'T', h1, h2, ':', n1, n2, ':', s1, s2, 'Z'] =>
    match twoDigits y1 y2, twoDigits y3 y4, twoDigits m1 m2, twoDigits d1 d2,
        twoDigits h1 h2, twoDigits n1 n2, twoDigits s1 s2 with
    | some yh, some yl, some month, some day, some hour, some min, some sec =>
      let year := 100 * yh + yl
      if 1 ≤ month ∧ month ≤ 12 ∧ 1 ≤ day ∧ day ≤ daysIn month year
          ∧ hour < 24 ∧ min < 60 ∧ sec < 60 then
        some ⟨(((daysFromCivil year month day * 24 + hour) * 60 + min) * 60 + sec)
          * 1000000000⟩
      else none
    | _, _, _, _, _, _, _ => none
  | _ => none


/-! ## Conditions: what the scan keeps -/

/-- The string under `lastTransitionTime` of a condition, read as a time. -/
def timestamp (timeParse : String → Option Time) : JSON → Option Time
  | .map conditionMap =>
    match conditionMap.lookup "lastTransitionTime" with
    | some (.string value) => timeParse value
    | _ => none
  | _ => none

/-- A condition of the given type that carries a `lastTransitionTime`: an object
whose `type` is that string and whose `lastTransitionTime` is a string. -/
def carries (type : String) : JSON → Bool
  | .map conditionMap =>
    match conditionMap.lookup "type", conditionMap.lookup "lastTransitionTime" with
    | some (.string t), some (.string _) => t == type
    | _, _ => false
  | _ => false

/-- A well-formed condition of the given type: string type, `lastTransitionTime`
a string that parses. -/
def wellFormed (timeParse : String → Option Time) (type : String) (c : JSON) : Bool :=
  carries type c && (timestamp timeParse c).isSome

/-- An entry the scan gets past: an object, and when both its `type` and its
`lastTransitionTime` are strings, the latter parses. -/
def scannable (timeParse : String → Option Time) : JSON → Bool
  | .map conditionMap =>
    match conditionMap.lookup "type", conditionMap.lookup "lastTransitionTime" with
    | some (.string _), some (.string value) => (timeParse value).isSome
    | _, _ => true
  | _ => false

/-- The last entry in list order that is a condition of the given type carrying
a `lastTransitionTime`. -/
def lastOccurrence (type : String) (conditions : List JSON) : Option JSON :=
  (conditions.filter (carries type)).getLast?

/-- The timestamp of the last condition of the given type in list order. -/
def lastTransition (timeParse : String → Option Time) (type : String)
    (conditions : List JSON) : Option Time :=
  (lastOccurrence type conditions).bind (timestamp timeParse)

/-- A well-formed condition of any type: an object with a string `type` and a
string `lastTransitionTime` that parses. -/
def wellFormedCondition (timeParse : String → Option Time) : JSON → Bool
  | .map conditionMap =>
    match conditionMap.lookup "type", conditionMap.lookup "lastTransitionTime" with
    | some (.string _), some (.string value) => (timeParse value).isSome
    | _, _ => false
  | _ => false

/-! ## Example objects -/

/-- A condition as the API server writes it. -/
def condition (type lastTransitionTime : String) : JSON :=
  .map [("type", .string type), ("status", .string "True"),
    ("lastTransitionTime", .string lastTransitionTime)]

/-- An owner reference. -/
def ownerRef (kind name : String) : JSON :=
  .map [("apiVersion", .string "apps/v1"), ("kind", .string kind), ("name", .string name)]

/-- The metadata of an object of namespace `default`; `owners = none` leaves
`ownerReferences` out. -/
def metadata (name : String) (labels : List (String × JSON)) (owners : Option (List JSON)) :
    JSON :=
  .map ([("name", .string name), ("namespace", .string "default"), ("labels", .map labels)]
    ++ match owners with
      | some refs => [("ownerReferences", .slice refs)]
      | none => [])

/-- A pod of namespace `default`. -/
def podObject (name app : String) (owners : Option (List JSON)) (phase : String)
    (conditions : List JSON) : Object :=
  [("apiVersion", .string "v1"), ("kind", .string "Pod"),
    ("metadata", metadata name [("app", .string app)] owners),
    ("status", .map [("phase", .string phase), ("conditions", .slice conditions)])]

/-- A ReplicaSet of namespace `default`. -/
def replicaSetObject (name : String) (owners : Option (List JSON)) : Object :=
  [("apiVersion", .string "apps/v1"), ("kind", .string "ReplicaSet"),
    ("metadata", metadata name [] owners)]

/-- A Deployment of namespace `default`. -/
def deploymentObject (name : String) (replicas : Int) : Object :=
  [("apiVersion", .string "apps/v1"), ("kind", .string "Deployment"),
    ("metadata", metadata name [] none),
    ("spec", .map [("replicas", .int64 replicas)])]

/-- An API server holding the given objects, and delivering the given events on
a watch: `Get` finds an object by resource, namespace and name, `List` gives
the objects of a resource and namespace, `Update` accepts every object. -/
def staticClient (objects : List (GroupVersionResource × Object))
    (events : List WatchEvent) : Client where
  get resource ns name :=
    match objects.find? (fun o => o.1 = resource ∧ GetNamespace o.2 = ns ∧ GetName o.2 = name) with
    | some o => .ok o.2
    | none => .error (name ++ " not found")
  update _ _ obj := .ok obj
  list resource ns :=
    .ok ((objects.filter (fun o => o.1 = resource ∧ GetNamespace o.2 = ns)).map (·.2))
  watch _ _ := .ok events

/-- Pod `web-1`: scheduled at `T`, ready seven seconds later. -/
def podSevenSeconds : Object :=
  podObject "web-1" "web" none "Running"
    [condition "PodScheduled" "2024-01-01T00:00:00Z",
     condition "Ready" "2024-01-01T00:00:07Z"]

/-- Pod `web-2`: as `web-1`, with one more condition whose time does not parse. -/
def podBadStamp : Object :=
  podObject "web-2" "web" none "Running"
    [condition "PodScheduled" "2024-01-01T00:00:00Z",
     condition "Ready" "2024-01-01T00:00:07Z",
     condition "Initialized" "yesterday"]

/-- Pod `web-3`: scheduled, with no `Ready` condition. -/
def podNotReady : Object :=
  podObject "web-3" "web" none "Pending"
    [condition "PodScheduled" "2024-01-01T00:00:00Z"]

/-- Pod `web-4`: both milestone types twice, the later entries five seconds apart. -/
def podDuplicates : Object :=
  podObject "web-4" "web" none "Running"
    [condition "Ready" "2024-01-01T00:00:03Z",
     condition "PodScheduled" "2024-01-01T00:00:01Z",
     condition "PodScheduled" "2024-01-01T00:00:10Z",
     condition "Ready" "2024-01-01T00:00:15Z"]

/-- The API server of the examples about pod conditions. -/
def conditionsClient : Client :=
  staticClient [(podResource, podSevenSeconds), (podResource, podBadStamp),
    (podResource, podNotReady), (podResource, podDuplicates)] []

/-- An owner reference, that is an object, whose `kind` is not exactly the given
string. -/
def otherKind (kind : String) : JSON → Bool
  | .map ownerRefMap => !ifaceEqString (ownerRefMap.lookup "kind") kind
  | _ => false

/-- ReplicaSet `web-7559`: owned by deployment `web`, listed after references of
other kinds and before another `Deployment` reference. -/
def replicaSetOwned : Object :=
  replicaSetObject "web-7559"
    (some [ownerRef "deployment" "lower-case", ownerRef "StatefulSet" "db",
      ownerRef "Deployment" "web", ownerRef "Deployment" "later"])

/-- ReplicaSet `bare`: no `ownerReferences` field. -/
def replicaSetBare : Object := replicaSetObject "bare" none

/-- ReplicaSet `empty`: an empty `ownerReferences` list. -/
def replicaSetEmpty : Object := replicaSetObject "empty" (some [])

/-- ReplicaSet `stray`: owner references of other kinds only. -/
def replicaSetStray : Object :=
  replicaSetObject "stray" (some [ownerRef "deployment" "web", ownerRef "DaemonSet" "agent"])

/-- The API server of the examples about ReplicaSets. -/
def replicaSetsClient : Client :=
  staticClient [(replicaSetResource, replicaSetOwned), (replicaSetResource, replicaSetBare),
    (replicaSetResource, replicaSetEmpty), (replicaSetResource, replicaSetStray)] []

/-- The NotFound outcome of `getDeploymentFromReplicaSet`: the empty name and an
error made by `fmt.Errorf` whose message says what was not found; and whenever
the fetch of that ReplicaSet fails instead, the client's own error is returned,
a different outcome. -/
def NotFound (dynamicClient : Client) (ns replicaSetName : String) : Prop :=
  ∃ msg, getDeploymentFromReplicaSet dynamicClient ns replicaSetName
        = .ret ("", some (.errorf msg))
    ∧ (msg = "owner references not found for ReplicaSet " ++ replicaSetName
        ∨ msg = "deployment owner reference not found for ReplicaSet " ++ replicaSetName)
    ∧ ∀ (failing : Client) (err : String),
        failing.get replicaSetResource ns replicaSetName = .error err →
        getDeploymentFromReplicaSet failing ns replicaSetName = .ret ("", some (.client err))
        ∧ getDeploymentFromReplicaSet failing ns replicaSetName
            ≠ getDeploymentFromReplicaSet dynamicClient ns replicaSetName

/-- The deployment object with `spec.replicas` set to the given count, `spec`
being its `spec` map. -/
def withReplicas (deployment spec : Object) (replicas : Int) : Object :=
  mapAssign deployment "spec" (.map (mapAssign spec "replicas" (.int64 replicas)))

/-- The API server of the scale-up example: the deployment has three replicas;
the watch delivers nothing. -/
def scaleClient : Client :=
  staticClient [(deploymentRes, deploymentObject "efficientdetnet-deployment" 3)] []

/-! ## Watch events -/

/-- An event whose type is `Added` or `Modified` carries a pod, as every such
event of the dynamic client does. -/
def carriesPod (e : WatchEvent) : Bool :=
  match e.type, e.object with
  | .Added, .status _ => false
  | .Modified, .status _ => false
  | _, _ => true

/-- An `Added` or `Modified` event of a pod whose `app` label is the deployment
name and whose `status.phase` is `"Succeeded"`. -/
def isSucceeded (deploymentName : String) (e : WatchEvent) : Bool :=
  match e.type, e.object with
  | .Added, .unstructured pod | .Modified, .unstructured pod =>
    let r := NestedString pod ["status", "phase"]
    mapIndex (GetLabels pod) "app" == deploymentName
      && r.found && r.err.isNone && r.val == "Succeeded"
  | _, _ => false

/-- Event types other than `Added` and `Modified`. -/
def EventType.ignored : EventType → Bool
  | .Deleted | .Bookmark | .Error => true
  | .Added | .Modified => false

/-- What can be seen of the loop from outside: what it printed, how it ended
and how often it read the clock. -/
def RunningTime.Watched.seen (w : RunningTime.Watched) : List Effect × Outcome Unit × Nat :=
  (w.effects, w.res, w.clock)

/-- A pod of the watched deployment in the given phase. -/
def watchedPod (phase : String) : Object :=
  podObject "efficientdetnet-deployment-7559b4b9cd-k76mr" "efficientdetnet-deployment"
    (some [ownerRef "ReplicaSet" "efficientdetnet-deployment-7559b4b9cd"]) phase []

/-- A pod of another application, phase `Succeeded`. -/
def otherPod : Object := podObject "db-0" "db" none "Succeeded" []

/-- A pod without labels, phase `Succeeded`. -/
def unlabelledPod : Object :=
  [("apiVersion", .string "v1"), ("kind", .string "Pod"),
    ("metadata", .map [("name", .string "job-1"), ("namespace", .string "default")]),
    ("status", .map [("phase", .string "Succeeded")])]

/-- A clock that ticks once a second from 2024-01-01. -/
def secondsClock (k : Nat) : Time := ⟨(1704067200 + k) * 1000000000⟩

/-! ## The scan of all pods -/

/-- The calls of `getPodStartUpTime` among the effects of a run, in order, each
with its arguments `(podNamespace, podDeploymentName, podName)`. -/
def calls : List Effect → List (String × String × String)
  | [] => []
  | .callGetPodStartUpTime podNamespace podDeploymentName podName :: rest =>
    (podNamespace, podDeploymentName, podName) :: calls rest
  | _ :: rest => calls rest

/-- The deployment name `main` has for a pod when it calls `getPodStartUpTime`. -/
def main.ownerName (dynamicClient : Client) (pod : Object) : String :=
  match (main.podDeploymentName dynamicClient pod).res with
  | .ret name => name
  | _ => ""

/-- The ownership resolution of a pod fails: the pod has no `ownerReferences`; or
its first owner reference of kind `ReplicaSet` names a ReplicaSet that cannot be
fetched, or one that is fetched and has no owner reference of kind
`Deployment`. -/
def OwnershipFails (dynamicClient : Client) (pod : Object) : Prop :=
  (NestedSlice pod ["metadata", "ownerReferences"]).found = false
  ∨ ∃ (before after : List JSON) (ownerRefMap : List (String × JSON)) (replicaSetName : String),
      NestedSlice pod ["metadata", "ownerReferences"]
        = ⟨before ++ .map ownerRefMap :: after, true, none⟩
      ∧ (∀ x ∈ before, otherKind "ReplicaSet" x = true)
      ∧ ownerRefMap.lookup "kind" = some (.string "ReplicaSet")
      ∧ ownerRefMap.lookup "name" = some (.string replicaSetName)
      ∧ ((∃ err, dynamicClient.get replicaSetResource (GetNamespace pod) replicaSetName
            = .error err)
        ∨ ∃ replicaSet, dynamicClient.get replicaSetResource (GetNamespace pod) replicaSetName
            = .ok replicaSet
          ∧ ((NestedSlice replicaSet ["metadata", "ownerReferences"]).found = false
            ∨ ∃ refs, NestedSlice replicaSet ["metadata", "ownerReferences"]
                = ⟨refs, true, none⟩
              ∧ ∀ x ∈ refs, otherKind "Deployment" x = true))

/-- The two conditions of a pod that became ready seven seconds after it was
scheduled. -/
def readyConditions : List JSON :=
  [condition "PodScheduled" "2024-01-01T00:00:00Z", condition "Ready" "2024-01-01T00:00:07Z"]

/-- Pod `web-a`, of ReplicaSet `web-7559`, which deployment `web` owns. -/
def podOwned : Object :=
  podObject "web-a" "web" (some [ownerRef "ReplicaSet" "web-7559"]) "Running" readyConditions

/-- Pod `gone-b`, of a ReplicaSet that the API server does not have. -/
def podOfMissingReplicaSet : Object :=
  podObject "gone-b" "gone" (some [ownerRef "ReplicaSet" "gone-1234"]) "Running" readyConditions

/-- Pod `stray-c`, of ReplicaSet `stray`, which no deployment owns. -/
def podOfStrayReplicaSet : Object :=
  podObject "stray-c" "stray" (some [ownerRef "ReplicaSet" "stray"]) "Running" readyConditions

/-- Pod `solo-d`, without `ownerReferences`. -/
def podSolo : Object := podObject "solo-d" "solo" none "Running" readyConditions

/-- Pod `new-e`, without `ownerReferences`, scheduled and not yet ready. -/
def podPending : Object :=
  podObject "new-e" "new" none "Pending" [condition "PodScheduled" "2024-01-01T00:00:00Z"]

/-- An API server whose pods all have both milestones. -/
def scanClient : Client :=
  staticClient [(deploymentRes, deploymentObject "efficientdetnet-deployment" 3),
    (replicaSetResource, replicaSetOwned), (replicaSetResource, replicaSetStray),
    (podResource, podOwned), (podResource, podOfMissingReplicaSet),
    (podResource, podOfStrayReplicaSet), (podResource, podSolo)] []

/-- An API server whose first pod is not ready yet. -/
def pendingClient : Client :=
  staticClient [(deploymentRes, deploymentObject "efficientdetnet-deployment" 3),
    (replicaSetResource, replicaSetOwned),
    (podResource, podPending), (podResource, podOwned)] []

/-! ## The scan of the conditions -/

theorem carries_timestamp {timeParse : String → Option Time} {type : String} {c : JSON}
    (hs : scannable timeParse c = true) (hc : carries type c = true) :
    ∃ t, timestamp timeParse c = some t := by
  cases c with
  | map m =>
    simp only [scannable, carries, timestamp] at *
    split at hc
    · rename_i h1 h2
      rw [h1, h2] at hs
      rw [h2]
      exact Option.isSome_iff_exists.mp hs
    · exact absurd hc (by simp)
  | _ => simp [carries] at hc

theorem lastOccurrence_cons (type : String) (c : JSON) (rest : List JSON) :
    lastOccurrence type (c :: rest)
      = (lastOccurrence type rest).or (if carries type c then some c else none) := by
  have h : c :: rest = [c] ++ rest := rfl
  unfold lastOccurrence
  rw [h, List.filter_append, List.getLast?_append]
  by_cases hc : carries type c = true <;> simp [List.filter, hc]

theorem lastOccurrence_mem {type : String} {conditions : List JSON} {x : JSON}
    (h : lastOccurrence type conditions = some x) :
    x ∈ conditions ∧ carries type x = true := by
  have hx : x ∈ conditions.filter (carries type) := List.mem_of_mem_getLast? h
  simpa [List.mem_filter] using hx

theorem lastTransition_cons {timeParse : String → Option Time} (type : String) (c : JSON)
    {rest : List JSON} (hs : ∀ x ∈ rest, scannable timeParse x = true) :
    lastTransition timeParse type (c :: rest)
      = (lastTransition timeParse type rest).or
          (if carries type c then timestamp timeParse c else none) := by
  unfold lastTransition
  rw [lastOccurrence_cons]
  cases h : lastOccurrence type rest with
  | none => by_cases hc : carries type c = true <;> simp [hc]
  | some x =>
    obtain ⟨hx, hcx⟩ := lastOccurrence_mem h
    obtain ⟨t, ht⟩ := carries_timestamp (hs x hx) hcx
    simp [ht]

theorem scan_eq (timeParse : String → Option Time) :
    ∀ (conditions : List JSON) (m : Milestones),
      (∀ x ∈ conditions, scannable timeParse x = true) →
      getPodStartUpTime.scan timeParse conditions m
        = .ret ⟨(lastTransition timeParse "PodScheduled" conditions).or m.podScheduledTime,
                (lastTransition timeParse "Ready" conditions).or m.podReadyTime⟩ := by
  intro conditions
  induction conditions with
  | nil => intro m _; simp [getPodStartUpTime.scan, lastTransition, lastOccurrence]
  | cons c rest ih =>
    intro m hs
    have hrest : ∀ x ∈ rest, scannable timeParse x = true :=
      fun x hx => hs x (List.mem_cons_of_mem _ hx)
    have hc : scannable timeParse c = true := hs c (List.mem_cons_self _ _)
    rw [lastTransition_cons "PodScheduled" c hrest, lastTransition_cons "Ready" c hrest]
    cases c with
    | map cm =>
      simp only [getPodStartUpTime.scan, carries, timestamp, scannable] at hc ⊢
      cases h1 : cm.lookup "type" with
      | none => simp [ih m hrest]
      | some ty =>
        cases ty with
        | string conditionType =>
          cases h2 : cm.lookup "lastTransitionTime" with
          | none => simp [ih m hrest]
          | some lt =>
            cases lt with
            | string value =>
              rw [h1, h2] at hc
              obtain ⟨t, ht⟩ := Option.isSome_iff_exists.mp hc
              simp only [ht]
              rw [ih _ hrest]
              by_cases hp : conditionType = "PodScheduled" <;>
                by_cases hr : conditionType = "Ready" <;>
                simp [hp, hr, Option.or_assoc]
            | _ => simp [ih m hrest]
        | _ => simp [ih m hrest]
    | _ => simp [scannable] at hc

theorem Time.Sub_exact (t u : Time) (hlo : minDuration ≤ t.unixNano - u.unixNano)
    (hhi : t.unixNano - u.unixNano ≤ maxDuration) :
    t.Sub u = t.unixNano - u.unixNano := by
  unfold Time.Sub
  simp only
  rw [if_neg (by omega), if_neg (by omega)]

theorem lastTransition_of_wellFormed {timeParse : String → Option Time} {type : String}
    {conditions : List JSON} (hscan : ∀ x ∈ conditions, scannable timeParse x = true)
    {c : JSON} (hc : c ∈ conditions) (hw : wellFormed timeParse type c = true) :
    ∃ t, lastTransition timeParse type conditions = some t := by
  have hcar : carries type c = true := by
    simp only [wellFormed, Bool.and_eq_true] at hw
    exact hw.1
  have hne : conditions.filter (carries type) ≠ [] :=
    List.ne_nil_of_mem (List.mem_filter.mpr ⟨hc, hcar⟩)
  obtain ⟨x, hx⟩ := Option.isSome_iff_exists.mp (List.getLast?_isSome.mpr hne)
  have hx2 : lastOccurrence type conditions = some x := hx
  obtain ⟨hmem, hcx⟩ := lastOccurrence_mem hx2
  obtain ⟨t, ht⟩ := carries_timestamp (hscan x hmem) hcx
  exact ⟨t, by simp [lastTransition, hx2, ht]⟩

theorem getPodStartUpTime_of_scan {timeParse : String → Option Time} {dynamicClient : Client}
    {ns podName : String} (deploymentName : String) {pod : Object} {conditions : List JSON}
    (hget : dynamicClient.get podResource ns podName = .ok pod)
    (hconds : NestedSlice pod ["status", "conditions"] = ⟨conditions, true, none⟩)
    (hscan : ∀ x ∈ conditions, scannable timeParse x = true) :
    getPodStartUpTime timeParse dynamicClient ns deploymentName podName
      = match lastTransition timeParse "PodScheduled" conditions with
        | none => Run.fatal "pod has no PodScheduled condition" none
        | some ts =>
          match lastTransition timeParse "Ready" conditions with
          | none => Run.fatal "pod has no Ready condition" none
          | some tr => ⟨[.printTimeDiff (tr.Sub ts)], .ret (tr.Sub ts, none)⟩ := by
  unfold getPodStartUpTime
  simp only [hget, hconds, scan_eq timeParse conditions ⟨none, none⟩ hscan]
  cases lastTransition timeParse "PodScheduled" conditions <;>
    cases lastTransition timeParse "Ready" conditions <;>
    simp [Run.bind, Run.emit, Run.ret, Run.fatal]

theorem scannable_of_wellFormedCondition {timeParse : String → Option Time} {c : JSON}
    (h : wellFormedCondition timeParse c = true) : scannable timeParse c = true := by
  cases c with
  | map m =>
    simp only [wellFormedCondition, scannable] at *
    split at h
    · exact h
    · exact absurd h (by simp)
  | _ => simp [wellFormedCondition] at h

/-! ## Pod start-up time -/

/-- C1, as the code has it: when the pod is fetched, every entry of its
condition list is an object, every entry whose `type` and `lastTransitionTime`
are strings has a `lastTransitionTime` that parses, and the list has a well-formed
`PodScheduled` and a well-formed `Ready` condition, `getPodStartUpTime` returns
with a nil error the duration `Ready.Sub(PodScheduled)` of the last such
conditions, and prints it. That duration is the exact difference of the two
timestamps whenever the difference fits a `time.Duration`, negative when
`Ready` precedes `PodScheduled`. -/
theorem getPodStartUpTime_returns_difference (timeParse : String → Option Time)
    (dynamicClient : Client) (ns deploymentName podName : String) (pod : Object)
    (conditions : List JSON) (scheduled ready : JSON)
    (hget : dynamicClient.get podResource ns podName = .ok pod)
    (hconds : NestedSlice pod ["status", "conditions"] = ⟨conditions, true, none⟩)
    (hscan : ∀ x ∈ conditions, scannable timeParse x = true)
    (hs : scheduled ∈ conditions) (hsw : wellFormed timeParse "PodScheduled" scheduled = true)
    (hr : ready ∈ conditions) (hrw : wellFormed timeParse "Ready" ready = true) :
    ∃ ts tr, lastTransition timeParse "PodScheduled" conditions = some ts
      ∧ lastTransition timeParse "Ready" conditions = some tr
      ∧ getPodStartUpTime timeParse dynamicClient ns deploymentName podName
          = ⟨[.printTimeDiff (tr.Sub ts)], .ret (tr.Sub ts, none)⟩
      ∧ (minDuration ≤ tr.unixNano - ts.unixNano → tr.unixNano - ts.unixNano ≤ maxDuration →
          tr.Sub ts = tr.unixNano - ts.unixNano) := by
  obtain ⟨ts, hts⟩ := lastTransition_of_wellFormed hscan hs hsw
  obtain ⟨tr, htr⟩ := lastTransition_of_wellFormed hscan hr hrw
  refine ⟨ts, tr, hts, htr, ?_, Time.Sub_exact tr ts⟩
  rw [getPodStartUpTime_of_scan deploymentName hget hconds hscan, hts, htr]

/-- C1, an instance: pod `web-1`, scheduled at `T` and ready at `T+7s`, gives
seven seconds. -/
theorem getPodStartUpTime_returns_difference_witness :
    ∃ ts tr,
      lastTransition parseUTC "PodScheduled"
          [condition "PodScheduled" "2024-01-01T00:00:00Z",
           condition "Ready" "2024-01-01T00:00:07Z"] = some ts
      ∧ lastTransition parseUTC "Ready"
          [condition "PodScheduled" "2024-01-01T00:00:00Z",
           condition "Ready" "2024-01-01T00:00:07Z"] = some tr
      ∧ getPodStartUpTime parseUTC conditionsClient "default" "" "web-1"
          = ⟨[.printTimeDiff (tr.Sub ts)], .ret (tr.Sub ts, none)⟩
      ∧ (minDuration ≤ tr.unixNano - ts.unixNano → tr.unixNano - ts.unixNano ≤ maxDuration →
          tr.Sub ts = tr.unixNano - ts.unixNano) :=
  getPodStartUpTime_returns_difference parseUTC conditionsClient "default" "" "web-1"
    podSevenSeconds _ (condition "PodScheduled" "2024-01-01T00:00:00Z")
    (condition "Ready" "2024-01-01T00:00:07Z") rfl rfl (by decide)
    (List.mem_cons_self _ _) (by decide)
    (List.mem_cons_of_mem _ (List.mem_cons_self _ _)) (by decide)

/-- C1 fails as stated: pod `web-2` has a well-formed `PodScheduled` and a
well-formed `Ready` condition, seven seconds apart, and a third condition whose
`lastTransitionTime` is not a timestamp; `getPodStartUpTime` does not return
seven seconds, it ends the process in `log.Fatalf("error parsing time: ...")`. -/
theorem getPodStartUpTime_unparsable_entry_is_fatal :
    conditionsClient.get podResource "default" "web-2" = .ok podBadStamp
    ∧ (∃ conditions, NestedSlice podBadStamp ["status", "conditions"] = ⟨conditions, true, none⟩
        ∧ condition "PodScheduled" "2024-01-01T00:00:00Z" ∈ conditions
        ∧ condition "Ready" "2024-01-01T00:00:07Z" ∈ conditions)
    ∧ wellFormed parseUTC "PodScheduled" (condition "PodScheduled" "2024-01-01T00:00:00Z") = true
    ∧ wellFormed parseUTC "Ready" (condition "Ready" "2024-01-01T00:00:07Z") = true
    ∧ getPodStartUpTime parseUTC conditionsClient "default" "" "web-2"
        = ⟨[], .fatal "error parsing time: %s\n" (some (.parse "yesterday"))⟩ :=
  ⟨rfl, ⟨_, rfl, List.mem_cons_self _ _, List.mem_cons_of_mem _ (List.mem_cons_self _ _)⟩,
    by decide, by decide, rfl⟩

/-- How far the missing-milestone defect of `getPodStartUpTime` reaches: for
every fetched pod whose condition list is scanned to its end (objects, parsable
timestamps) and has a well-formed `PodScheduled` condition and no `Ready`
condition with a `lastTransitionTime`, the call runs into
`log.Fatalf("pod has no Ready condition")` (controller3.go:130-133) and the
`return duration, nil` written after it is never reached. -/
theorem getPodStartUpTime_missing_ready_is_fatal (timeParse : String → Option Time)
    (dynamicClient : Client) (ns deploymentName podName : String) (pod : Object)
    (conditions : List JSON) (scheduled : JSON)
    (hget : dynamicClient.get podResource ns podName = .ok pod)
    (hconds : NestedSlice pod ["status", "conditions"] = ⟨conditions, true, none⟩)
    (hscan : ∀ x ∈ conditions, scannable timeParse x = true)
    (hs : scheduled ∈ conditions) (hsw : wellFormed timeParse "PodScheduled" scheduled = true)
    (hnone : ∀ x ∈ conditions, carries "Ready" x = false) :
    getPodStartUpTime timeParse dynamicClient ns deploymentName podName
      = ⟨[], .fatal "pod has no Ready condition" none⟩ := by
  obtain ⟨ts, hts⟩ := lastTransition_of_wellFormed hscan hs hsw
  have hfil : conditions.filter (carries "Ready") = [] :=
    List.filter_eq_nil_iff.mpr (fun x hx => by simp [hnone x hx])
  have htr : lastTransition timeParse "Ready" conditions = none := by
    simp [lastTransition, lastOccurrence, hfil]
  rw [getPodStartUpTime_of_scan deploymentName hget hconds hscan, hts, htr]
  rfl

/-- C2 is not met by the code. The claim: for a pod with a `PodScheduled`
condition and no `Ready` condition, `getPodStartUpTime` signals a non-fatal
missing-milestone outcome and never ends the program. The code, on pod `web-3`
whose only condition is `PodScheduled`: the outcome is the fatal exit of
`log.Fatalf("pod has no Ready condition")`, and no value is returned; the
`return duration, nil` of controller3.go:132 is dead. -/
theorem getPodStartUpTime_missing_ready_not_returned :
    (∃ conditions, NestedSlice podNotReady ["status", "conditions"] = ⟨conditions, true, none⟩
        ∧ condition "PodScheduled" "2024-01-01T00:00:00Z" ∈ conditions
        ∧ ∀ x ∈ conditions, carries "Ready" x = false)
    ∧ (getPodStartUpTime parseUTC conditionsClient "default" "" "web-3").res
        = .fatal "pod has no Ready condition" none
    ∧ ∀ v, (getPodStartUpTime parseUTC conditionsClient "default" "" "web-3").res ≠ .ret v :=
  ⟨⟨_, rfl, List.mem_cons_self _ _, by decide⟩, rfl, fun v h => by cases h⟩

/-- C9: when the pod is fetched and every entry of its condition list is a
well-formed condition, `getPodStartUpTime` returns with a nil error
`tr.Sub(ts)`, where `tr` is the timestamp of the last `Ready` entry in list
order and `ts` that of the last `PodScheduled` entry, whatever the entries of
these types before them; `tr.Sub(ts)` is the exact difference whenever it fits
a `time.Duration`. -/
theorem getPodStartUpTime_uses_last_occurrence (timeParse : String → Option Time)
    (dynamicClient : Client) (ns deploymentName podName : String) (pod : Object)
    (conditions : List JSON) (scheduled ready : JSON)
    (hget : dynamicClient.get podResource ns podName = .ok pod)
    (hconds : NestedSlice pod ["status", "conditions"] = ⟨conditions, true, none⟩)
    (hwf : ∀ x ∈ conditions, wellFormedCondition timeParse x = true)
    (hs : lastOccurrence "PodScheduled" conditions = some scheduled)
    (hr : lastOccurrence "Ready" conditions = some ready) :
    ∃ ts tr, timestamp timeParse scheduled = some ts
      ∧ timestamp timeParse ready = some tr
      ∧ getPodStartUpTime timeParse dynamicClient ns deploymentName podName
          = ⟨[.printTimeDiff (tr.Sub ts)], .ret (tr.Sub ts, none)⟩
      ∧ (minDuration ≤ tr.unixNano - ts.unixNano → tr.unixNano - ts.unixNano ≤ maxDuration →
          tr.Sub ts = tr.unixNano - ts.unixNano) := by
  have hscan : ∀ x ∈ conditions, scannable timeParse x = true :=
    fun x hx => scannable_of_wellFormedCondition (hwf x hx)
  obtain ⟨hsm, hsc⟩ := lastOccurrence_mem hs
  obtain ⟨hrm, hrc⟩ := lastOccurrence_mem hr
  obtain ⟨ts, hts⟩ := carries_timestamp (hscan _ hsm) hsc
  obtain ⟨tr, htr⟩ := carries_timestamp (hscan _ hrm) hrc
  refine ⟨ts, tr, hts, htr, ?_, Time.Sub_exact tr ts⟩
  rw [getPodStartUpTime_of_scan deploymentName hget hconds hscan]
  simp [lastTransition, hs, hr, hts, htr]

/-- C9, an instance: pod `web-4` lists `Ready` at :03, `PodScheduled` at :01,
`PodScheduled` at :10 and `Ready` at :15; the result is the five seconds between
the last two. -/
theorem getPodStartUpTime_uses_last_occurrence_witness :
    lastOccurrence "PodScheduled"
        [condition "Ready" "2024-01-01T00:00:03Z", condition "PodScheduled" "2024-01-01T00:00:01Z",
         condition "PodScheduled" "2024-01-01T00:00:10Z", condition "Ready" "2024-01-01T00:00:15Z"]
      = some (condition "PodScheduled" "2024-01-01T00:00:10Z")
    ∧ lastOccurrence "Ready"
        [condition "Ready" "2024-01-01T00:00:03Z", condition "PodScheduled" "2024-01-01T00:00:01Z",
         condition "PodScheduled" "2024-01-01T00:00:10Z", condition "Ready" "2024-01-01T00:00:15Z"]
      = some (condition "Ready" "2024-01-01T00:00:15Z")
    ∧ ∃ ts tr, timestamp parseUTC (condition "PodScheduled" "2024-01-01T00:00:10Z") = some ts
      ∧ timestamp parseUTC (condition "Ready" "2024-01-01T00:00:15Z") = some tr
      ∧ getPodStartUpTime parseUTC conditionsClient "default" "" "web-4"
          = ⟨[.printTimeDiff (tr.Sub ts)], .ret (tr.Sub ts, none)⟩
      ∧ (minDuration ≤ tr.unixNano - ts.unixNano → tr.unixNano - ts.unixNano ≤ maxDuration →
          tr.Sub ts = tr.unixNano - ts.unixNano) :=
  ⟨rfl, rfl,
    getPodStartUpTime_uses_last_occurrence parseUTC conditionsClient "default" "" "web-4"
      podDuplicates _ _ _ rfl rfl (by decide) rfl rfl⟩

/-! ## The deployment of a ReplicaSet -/

theorem getDeploymentFromReplicaSet_scan_other (replicaSetName : String) :
    ∀ (before rest : List JSON), (∀ x ∈ before, otherKind "Deployment" x = true) →
      getDeploymentFromReplicaSet.scan replicaSetName (before ++ rest)
        = getDeploymentFromReplicaSet.scan replicaSetName rest := by
  intro before
  induction before with
  | nil => intro rest _; rfl
  | cons x xs ih =>
    intro rest h
    have hx : otherKind "Deployment" x = true := h x (List.mem_cons_self _ _)
    have hxs : ∀ y ∈ xs, otherKind "Deployment" y = true :=
      fun y hy => h y (List.mem_cons_of_mem _ hy)
    cases x with
    | map m =>
      simp only [otherKind, Bool.not_eq_true'] at hx
      simp only [List.cons_append, getDeploymentFromReplicaSet.scan, hx]
      exact ih rest hxs
    | _ => simp [otherKind] at hx

/-- C8: when the ReplicaSet is fetched and its owner references are `before`,
then an object whose `kind` is exactly the string `"Deployment"` and whose
`name` is a string, then `after`, where every entry of `before` is an owner
reference of another kind (a `kind` that differs from `"Deployment"`, be it only
by case), `getDeploymentFromReplicaSet` returns that name with a nil error,
whatever `after` holds. -/
theorem getDeploymentFromReplicaSet_first_deployment (dynamicClient : Client)
    (ns replicaSetName : String) (replicaSet : Object) (before after : List JSON)
    (ownerRefMap : List (String × JSON)) (name : String)
    (hget : dynamicClient.get replicaSetResource ns replicaSetName = .ok replicaSet)
    (hrefs : NestedSlice replicaSet ["metadata", "ownerReferences"]
      = ⟨before ++ .map ownerRefMap :: after, true, none⟩)
    (hbefore : ∀ x ∈ before, otherKind "Deployment" x = true)
    (hkind : ownerRefMap.lookup "kind" = some (.string "Deployment"))
    (hname : ownerRefMap.lookup "name" = some (.string name)) :
    getDeploymentFromReplicaSet dynamicClient ns replicaSetName = .ret (name, none) := by
  unfold getDeploymentFromReplicaSet
  simp only [hget, hrefs]
  rw [show ((none : Option GoError).isSome || !true) = false from rfl]
  simp only [Bool.false_eq_true, if_false]
  rw [getDeploymentFromReplicaSet_scan_other replicaSetName before _ hbefore]
  simp [getDeploymentFromReplicaSet.scan, hkind, hname, ifaceEqString]

/-- C8, an instance: ReplicaSet `web-7559` lists references of kinds
`deployment` and `StatefulSet`, then `Deployment` named `web`, then `Deployment`
named `later`; the result is `web`. -/
theorem getDeploymentFromReplicaSet_first_deployment_witness :
    getDeploymentFromReplicaSet replicaSetsClient "default" "web-7559" = .ret ("web", none) :=
  getDeploymentFromReplicaSet_first_deployment replicaSetsClient "default" "web-7559"
    replicaSetOwned [ownerRef "deployment" "lower-case", ownerRef "StatefulSet" "db"]
    [ownerRef "Deployment" "later"] _ "web" rfl rfl (by decide) rfl rfl

theorem getDeploymentFromReplicaSet_errorf (dynamicClient : Client)
    (ns replicaSetName : String) (replicaSet : Object)
    (hget : dynamicClient.get replicaSetResource ns replicaSetName = .ok replicaSet)
    (hrefs : (NestedSlice replicaSet ["metadata", "ownerReferences"]).found = false
      ∨ ∃ refs, NestedSlice replicaSet ["metadata", "ownerReferences"] = ⟨refs, true, none⟩
          ∧ ∀ x ∈ refs, otherKind "Deployment" x = true) :
    ∃ msg, getDeploymentFromReplicaSet dynamicClient ns replicaSetName
          = .ret ("", some (.errorf msg))
      ∧ (msg = "owner references not found for ReplicaSet " ++ replicaSetName
          ∨ msg = "deployment owner reference not found for ReplicaSet " ++ replicaSetName) := by
  rcases hrefs with hnf | ⟨refs, hr, hother⟩
  · refine ⟨_, ?_, Or.inl rfl⟩
    simp [getDeploymentFromReplicaSet, hget, hnf]
  · refine ⟨_, ?_, Or.inr rfl⟩
    unfold getDeploymentFromReplicaSet
    simp only [hget, hr]
    rw [show ((none : Option GoError).isSome || !true) = false from rfl]
    simp only [Bool.false_eq_true, if_false]
    have := getDeploymentFromReplicaSet_scan_other replicaSetName refs [] hother
    rw [List.append_nil] at this
    rw [this]
    rfl

/-- C3: when the ReplicaSet is fetched and its `metadata.ownerReferences` is
absent (not found), or is a list, possibly empty, of owner references none of
which has `kind` exactly `"Deployment"`, `getDeploymentFromReplicaSet` returns
the empty name and an error made by `fmt.Errorf` that says what was not found.
That error is not the one returned when the fetch fails: then the client's own
error comes back, and no client error equals it. -/
theorem getDeploymentFromReplicaSet_not_found (dynamicClient : Client)
    (ns replicaSetName : String) (replicaSet : Object)
    (hget : dynamicClient.get replicaSetResource ns replicaSetName = .ok replicaSet)
    (hrefs : (NestedSlice replicaSet ["metadata", "ownerReferences"]).found = false
      ∨ ∃ refs, NestedSlice replicaSet ["metadata", "ownerReferences"] = ⟨refs, true, none⟩
          ∧ ∀ x ∈ refs, otherKind "Deployment" x = true) :
    NotFound dynamicClient ns replicaSetName := by
  obtain ⟨msg, h, hmsg⟩ :=
    getDeploymentFromReplicaSet_errorf dynamicClient ns replicaSetName replicaSet hget hrefs
  refine ⟨msg, h, hmsg, fun failing err hf => ?_⟩
  have hfail : getDeploymentFromReplicaSet failing ns replicaSetName
      = .ret ("", some (.client err)) := by
    simp [getDeploymentFromReplicaSet, hf]
  refine ⟨hfail, ?_⟩
  rw [hfail, h]
  intro heq
  cases heq

/-- C3, three instances: ReplicaSet `bare` has no `ownerReferences`, `empty` an
empty list, `stray` references of kinds `deployment` and `DaemonSet` only. -/
theorem getDeploymentFromReplicaSet_not_found_witness :
    NotFound replicaSetsClient "default" "bare"
    ∧ NotFound replicaSetsClient "default" "empty"
    ∧ NotFound replicaSetsClient "default" "stray" :=
  ⟨getDeploymentFromReplicaSet_not_found replicaSetsClient "default" "bare" replicaSetBare
      rfl (Or.inl rfl),
    getDeploymentFromReplicaSet_not_found replicaSetsClient "default" "empty" replicaSetEmpty
      rfl (Or.inr ⟨[], rfl, by decide⟩),
    getDeploymentFromReplicaSet_not_found replicaSetsClient "default" "stray" replicaSetStray
      rfl (Or.inr ⟨_, rfl, by decide⟩)⟩

/-! ## The scale trigger -/

theorem lookup_mapAssign (m : Object) (key : String) (value : JSON) :
    (mapAssign m key value).lookup key = some value := by
  induction m with
  | nil => simp [mapAssign, List.lookup]
  | cons kv rest ih =>
    obtain ⟨k, v⟩ := kv
    by_cases h : key = k
    · subst h
      simp [mapAssign, List.lookup]
    · have hb : (key == k) = false := by simpa using h
      simp only [mapAssign, hb, Bool.false_eq_true, if_false, List.lookup]
      exact ih

theorem incInt64_exact (n : Int) (hlo : -(2 ^ 63) ≤ n) (hhi : n + 1 < 2 ^ 63) :
    incInt64 n = n + 1 := by
  unfold incInt64
  norm_num at hlo hhi ⊢
  omega

theorem NestedInt64_replicas (deployment spec : Object) (n : Int)
    (hspec : deployment.lookup "spec" = some (.map spec))
    (hrep : spec.lookup "replicas" = some (.int64 n)) :
    NestedInt64 deployment ["spec", "replicas"] = ⟨n, true, none⟩ := by
  simp [NestedInt64, NestedFieldNoCopy, NestedFieldNoCopy.go, hspec, hrep]

theorem NestedInt64_withReplicas (deployment spec : Object) (n : Int) :
    NestedInt64 (withReplicas deployment spec n) ["spec", "replicas"] = ⟨n, true, none⟩ :=
  NestedInt64_replicas _ _ n (lookup_mapAssign _ _ _) (lookup_mapAssign _ _ _)

theorem SetNestedField_replicas (deployment spec : Object) (n : Int)
    (hspec : deployment.lookup "spec" = some (.map spec)) :
    SetNestedField deployment (.int64 n) ["spec", "replicas"]
      = .ok (withReplicas deployment spec n) := by
  simp [SetNestedField, hspec, withReplicas]

/-- C4: when the deployment is fetched, its `spec.replicas` is the `int64` value
`n` (below the largest `int64`, so that `replicas++` does not wrap) and the
update succeeds, `createAPod` sends one update, the fetched object with
`spec.replicas` set to `n + 1`, prints `n + 1` as the new count and returns
true; the `main` of `running_time`, for its own deployment, sends that same
update first and then prints `n + 1` with the time. -/
theorem scale_up_writes_successor (now : Nat → Time) (dynamicClient : Client)
    (ns deploymentName : String) (deployment spec updated : Object) (n : Int)
    (hget : dynamicClient.get deploymentRes ns deploymentName = .ok deployment)
    (hspec : deployment.lookup "spec" = some (.map spec))
    (hrep : spec.lookup "replicas" = some (.int64 n))
    (hlo : -(2 ^ 63) ≤ n) (hhi : n + 1 < 2 ^ 63)
    (hupd : dynamicClient.update deploymentRes ns (withReplicas deployment spec (n + 1))
      = .ok updated) :
    NestedInt64 (withReplicas deployment spec (n + 1)) ["spec", "replicas"]
        = ⟨n + 1, true, none⟩
    ∧ createAPod dynamicClient ns deploymentName
        = ⟨[.update deploymentRes ns (withReplicas deployment spec (n + 1)),
            .printIncreased (n + 1)], .ret true⟩
    ∧ (ns = "default" → deploymentName = RunningTime.deploymentName →
        ∃ rest, (RunningTime.main now dynamicClient).effects
          = .update deploymentRes "default" (withReplicas deployment spec (n + 1))
            :: .printIncreasedAt (n + 1) (now 0) :: rest) := by
  have hinc := incInt64_exact n hlo hhi
  refine ⟨NestedInt64_withReplicas _ _ _, ?_, ?_⟩
  · unfold createAPod
    simp only [hget, hspec, hrep, hinc]
    rw [← withReplicas, hupd]
    rfl
  · intro hns hname
    subst hns hname
    unfold RunningTime.main
    simp only [hget, NestedInt64_replicas deployment spec n hspec hrep, hinc,
      SetNestedField_replicas deployment spec (n + 1) hspec, hupd]
    cases hw : dynamicClient.watch podResource "default" with
    | error e => exact ⟨[], rfl⟩
    | ok events => exact ⟨_, rfl⟩

/-- C4, an instance: a deployment with three replicas; the update carries four
and four is reported. -/
theorem scale_up_writes_successor_witness :
    NestedInt64 (withReplicas (deploymentObject "efficientdetnet-deployment" 3)
        [("replicas", .int64 3)] (3 + 1)) ["spec", "replicas"] = ⟨3 + 1, true, none⟩
    ∧ createAPod scaleClient "default" "efficientdetnet-deployment"
        = ⟨[.update deploymentRes "default"
              (withReplicas (deploymentObject "efficientdetnet-deployment" 3)
                [("replicas", .int64 3)] (3 + 1)),
            .printIncreased (3 + 1)], .ret true⟩
    ∧ ("default" = "default" → "efficientdetnet-deployment" = RunningTime.deploymentName →
        ∃ rest, (RunningTime.main (fun _ => ⟨0⟩) scaleClient).effects
          = .update deploymentRes "default"
              (withReplicas (deploymentObject "efficientdetnet-deployment" 3)
                [("replicas", .int64 3)] (3 + 1))
            :: .printIncreasedAt (3 + 1) ⟨0⟩ :: rest) :=
  scale_up_writes_successor (fun _ => ⟨0⟩) scaleClient "default" "efficientdetnet-deployment"
    (deploymentObject "efficientdetnet-deployment" 3) [("replicas", .int64 3)]
    (withReplicas (deploymentObject "efficientdetnet-deployment" 3) [("replicas", .int64 3)] 4)
    3 rfl rfl rfl (by decide) (by decide) rfl

/-! ## The watch loop -/

theorem watch_succeeded (deploymentName : String) (now : Nat → Time) (e : WatchEvent)
    (pod : Object) (rest : List WatchEvent) (k : Nat)
    (he : isSucceeded deploymentName e = true) (hobj : e.object = .unstructured pod) :
    RunningTime.main.watch deploymentName now (e :: rest) k
      = ⟨[.printObservation (GetName pod) (now k) "Succeeded", .printSucceeded],
          .ret (), rest, k + 1⟩ := by
  obtain ⟨ty, obj⟩ := e
  simp only at hobj
  subst hobj
  cases ty <;> simp [isSucceeded] at he
  all_goals
    obtain ⟨⟨⟨h1, h2⟩, h3⟩, h4⟩ := he
    simp [RunningTime.main.watch, h1, h2, h3, h4]

theorem watch_ignored (deploymentName : String) (now : Nat → Time) (e : WatchEvent)
    (rest : List WatchEvent) (k : Nat) (h : e.type.ignored = true) :
    RunningTime.main.watch deploymentName now (e :: rest) k = RunningTime.main.watch deploymentName now rest k := by
  obtain ⟨ty, obj⟩ := e
  cases ty <;> simp [EventType.ignored] at h <;> simp [RunningTime.main.watch]

theorem watch_pod (deploymentName : String) (now : Nat → Time) (ty : EventType)
    (pod : Object) (rest : List WatchEvent) (k : Nat) (h : ty.ignored = false) :
    RunningTime.main.watch deploymentName now (⟨ty, .unstructured pod⟩ :: rest) k
      = if mapIndex (GetLabels pod) "app" = deploymentName then
          if ((NestedString pod ["status", "phase"]).err.isSome
              || !(NestedString pod ["status", "phase"]).found) = true then
            RunningTime.main.watch deploymentName now rest k
          else if (NestedString pod ["status", "phase"]).val = "Succeeded" then
            ⟨[.printObservation (GetName pod) (now k) (NestedString pod ["status", "phase"]).val,
              .printSucceeded], .ret (), rest, k + 1⟩
          else (RunningTime.main.watch deploymentName now rest (k + 1)).after
            (.printObservation (GetName pod) (now k) (NestedString pod ["status", "phase"]).val)
        else RunningTime.main.watch deploymentName now rest k := by
  cases ty <;> simp [EventType.ignored] at h <;> simp [RunningTime.main.watch]

theorem watch_append (deploymentName : String) (now : Nat → Time) :
    ∀ (before rest : List WatchEvent) (k : Nat),
      (∀ x ∈ before, carriesPod x = true) →
      (∀ x ∈ before, isSucceeded deploymentName x = false) →
      RunningTime.main.watch deploymentName now (before ++ rest) k
        = ⟨(RunningTime.main.watch deploymentName now before k).effects
            ++ (RunningTime.main.watch deploymentName now rest
                (RunningTime.main.watch deploymentName now before k).clock).effects,
          (RunningTime.main.watch deploymentName now rest
            (RunningTime.main.watch deploymentName now before k).clock).res,
          (RunningTime.main.watch deploymentName now rest
            (RunningTime.main.watch deploymentName now before k).clock).unread,
          (RunningTime.main.watch deploymentName now rest
            (RunningTime.main.watch deploymentName now before k).clock).clock⟩ := by
  intro before
  induction before with
  | nil => intro rest k _ _; simp [RunningTime.main.watch]
  | cons e before ih =>
    intro rest k hpods hnot
    have hp : carriesPod e = true := hpods e (List.mem_cons_self _ _)
    have hn : isSucceeded deploymentName e = false := hnot e (List.mem_cons_self _ _)
    have ih1 := fun j => ih rest j (fun x hx => hpods x (List.mem_cons_of_mem _ hx))
      (fun x hx => hnot x (List.mem_cons_of_mem _ hx))
    by_cases hi : e.type.ignored = true
    · rw [List.cons_append, watch_ignored _ _ _ _ _ hi, watch_ignored _ _ _ _ _ hi]
      exact ih1 k
    · have hi2 : e.type.ignored = false := by simpa using hi
      obtain ⟨ty, obj⟩ := e
      cases obj with
      | status m => cases ty <;> simp [EventType.ignored] at hi2 <;> simp [carriesPod] at hp
      | unstructured pod =>
        simp only at hi2
        rw [List.cons_append, watch_pod _ _ _ _ _ _ hi2, watch_pod _ _ _ _ _ _ hi2]
        by_cases h1 : mapIndex (GetLabels pod) "app" = deploymentName
        · by_cases h2 : ((NestedString pod ["status", "phase"]).err.isSome
              || !(NestedString pod ["status", "phase"]).found) = true
          · simp only [h1, h2, if_true]
            exact ih1 k
          · by_cases h3 : (NestedString pod ["status", "phase"]).val = "Succeeded"
            · exfalso
              have : isSucceeded deploymentName ⟨ty, .unstructured pod⟩ = true := by
                have h2b : (NestedString pod ["status", "phase"]).err = none
                    ∧ (NestedString pod ["status", "phase"]).found = true := by simpa using h2
                cases ty <;> simp [EventType.ignored] at hi2 <;>
                  simp [isSucceeded, h1, h3, h2b.1, h2b.2]
              rw [this] at hn
              exact absurd hn (by simp)
            · simp only [h1, h2, h3, if_true, if_false, Bool.false_eq_true]
              rw [ih1 (k + 1)]
              simp [RunningTime.Watched.after]
        · simp only [h1, if_false]
          exact ih1 k

theorem watch_cons_congr (deploymentName : String) (now : Nat → Time) (e : WatchEvent)
    (l₁ l₂ : List WatchEvent)
    (h : ∀ k, (RunningTime.main.watch deploymentName now l₁ k).seen
      = (RunningTime.main.watch deploymentName now l₂ k).seen) (k : Nat) :
    (RunningTime.main.watch deploymentName now (e :: l₁) k).seen
      = (RunningTime.main.watch deploymentName now (e :: l₂) k).seen := by
  by_cases hi : e.type.ignored = true
  · rw [watch_ignored _ _ _ _ _ hi, watch_ignored _ _ _ _ _ hi]
    exact h k
  · have hi2 : e.type.ignored = false := by simpa using hi
    obtain ⟨ty, obj⟩ := e
    cases obj with
    | status m =>
      cases ty <;> simp [EventType.ignored] at hi2 <;> simp [RunningTime.main.watch, RunningTime.Watched.seen]
    | unstructured pod =>
      simp only at hi2
      rw [watch_pod _ _ _ _ _ _ hi2, watch_pod _ _ _ _ _ _ hi2]
      by_cases h1 : mapIndex (GetLabels pod) "app" = deploymentName
      · by_cases h2 : ((NestedString pod ["status", "phase"]).err.isSome
            || !(NestedString pod ["status", "phase"]).found) = true
        · simp only [h1, h2, if_true]
          exact h k
        · by_cases h3 : (NestedString pod ["status", "phase"]).val = "Succeeded"
          · simp [h1, h2, h3, RunningTime.Watched.seen]
          · have hk := h (k + 1)
            simp only [RunningTime.Watched.seen, Prod.mk.injEq] at hk
            simp only [h1, h2, h3, if_true, if_false, Bool.false_eq_true, RunningTime.Watched.seen,
              RunningTime.Watched.after, hk.1, hk.2.1, hk.2.2]
      · simp only [h1, if_false]
        exact h k

theorem watch_skip_middle (deploymentName : String) (now : Nat → Time) (e : WatchEvent)
    (hskip : ∀ rest k, RunningTime.main.watch deploymentName now (e :: rest) k
      = RunningTime.main.watch deploymentName now rest k) :
    ∀ (before rest : List WatchEvent) (k : Nat),
      (RunningTime.main.watch deploymentName now (before ++ e :: rest) k).seen
        = (RunningTime.main.watch deploymentName now (before ++ rest) k).seen := by
  intro before
  induction before with
  | nil => intro rest k; simp [hskip]
  | cons x before ih =>
    intro rest k
    exact watch_cons_congr deploymentName now x _ _ (fun j => ih rest j) k

/-- C5: when an event sequence is `before`, then an `Added` or `Modified` event
of a pod whose `app` label is the deployment name and whose phase is
`"Succeeded"`, then `after`, and no event of `before` is such an event (each
`Added` or `Modified` event of `before` carrying a pod), the loop prints what it
prints for `before`, then the observation record of that event and the lines
saying the pod succeeded, and is left there: the events of `after` stay unread.
In particular, on `Added` (phase `Pending`), `Modified` (phase `Running`),
`Modified` (phase `Succeeded`) of matching pods followed by any further events,
it prints exactly three records, with phases `Pending`, `Running`, `Succeeded`
in that order. -/
theorem watch_stops_at_first_succeeded (deploymentName : String) (now : Nat → Time)
    (before after : List WatchEvent) (e : WatchEvent) (pod : Object) (k : Nat)
    (hpods : ∀ x ∈ before, carriesPod x = true)
    (hnot : ∀ x ∈ before, isSucceeded deploymentName x = false)
    (he : isSucceeded deploymentName e = true) (hobj : e.object = .unstructured pod) :
    RunningTime.main.watch deploymentName now (before ++ e :: after) k
        = ⟨(RunningTime.main.watch deploymentName now before k).effects
            ++ [.printObservation (GetName pod)
                  (now (RunningTime.main.watch deploymentName now before k).clock) "Succeeded",
                .printSucceeded],
          .ret (), after, (RunningTime.main.watch deploymentName now before k).clock + 1⟩
    ∧ ∀ (p1 p2 p3 : Object) (further : List WatchEvent) (j : Nat),
        mapIndex (GetLabels p1) "app" = deploymentName →
        mapIndex (GetLabels p2) "app" = deploymentName →
        mapIndex (GetLabels p3) "app" = deploymentName →
        NestedString p1 ["status", "phase"] = ⟨"Pending", true, none⟩ →
        NestedString p2 ["status", "phase"] = ⟨"Running", true, none⟩ →
        NestedString p3 ["status", "phase"] = ⟨"Succeeded", true, none⟩ →
        RunningTime.main.watch deploymentName now
            (⟨.Added, .unstructured p1⟩ :: ⟨.Modified, .unstructured p2⟩
              :: ⟨.Modified, .unstructured p3⟩ :: further) j
          = ⟨[.printObservation (GetName p1) (now j) "Pending",
              .printObservation (GetName p2) (now (j + 1)) "Running",
              .printObservation (GetName p3) (now (j + 2)) "Succeeded",
              .printSucceeded], .ret (), further, j + 3⟩ := by
  constructor
  · rw [watch_append deploymentName now before (e :: after) k hpods hnot,
      watch_succeeded deploymentName now e pod after _ he hobj]
  · intro p1 p2 p3 further j h1 h2 h3 f1 f2 f3
    simp [RunningTime.main.watch, RunningTime.Watched.after, h1, h2, h3, f1, f2, f3]

/-- C5, an instance: the three scripted events of a pod of the watched
deployment, followed by two more events of matching pods; three records are
printed and the two further events are never read. -/
theorem watch_stops_at_first_succeeded_witness :
    RunningTime.main.watch RunningTime.deploymentName secondsClock
        ([⟨.Added, .unstructured (watchedPod "Pending")⟩,
          ⟨.Modified, .unstructured (watchedPod "Running")⟩]
          ++ ⟨.Modified, .unstructured (watchedPod "Succeeded")⟩
          :: [⟨.Modified, .unstructured (watchedPod "Running")⟩,
              ⟨.Added, .unstructured (watchedPod "Succeeded")⟩]) 1
      = ⟨[.printObservation "efficientdetnet-deployment-7559b4b9cd-k76mr"
            (secondsClock 1) "Pending",
          .printObservation "efficientdetnet-deployment-7559b4b9cd-k76mr"
            (secondsClock 2) "Running",
          .printObservation "efficientdetnet-deployment-7559b4b9cd-k76mr"
            (secondsClock 3) "Succeeded",
          .printSucceeded], .ret (),
        [⟨.Modified, .unstructured (watchedPod "Running")⟩,
         ⟨.Added, .unstructured (watchedPod "Succeeded")⟩], 4⟩ :=
  (watch_stops_at_first_succeeded RunningTime.deploymentName secondsClock
    [⟨.Added, .unstructured (watchedPod "Pending")⟩,
     ⟨.Modified, .unstructured (watchedPod "Running")⟩]
    [⟨.Modified, .unstructured (watchedPod "Running")⟩,
     ⟨.Added, .unstructured (watchedPod "Succeeded")⟩]
    ⟨.Modified, .unstructured (watchedPod "Succeeded")⟩ (watchedPod "Succeeded") 1
    (by decide) (by decide) (by decide) rfl).1

/-- C6: an event of a pod whose `app` label (the empty string when the pod has
none) is not the deployment name leaves the loop as it was, whatever the event
type and the phase: the loop on the event followed by `rest` is the loop on
`rest`, and at any place of a sequence the event changes nothing of what is
printed, of how the loop ends and of the clock. A pod without an `app` label is
such a pod for the deployment name of `main`. -/
theorem watch_skips_other_labels (deploymentName : String) (now : Nat → Time)
    (type : EventType) (pod : Object) (rest : List WatchEvent) (k : Nat)
    (hlabel : mapIndex (GetLabels pod) "app" ≠ deploymentName) :
    RunningTime.main.watch deploymentName now (⟨type, .unstructured pod⟩ :: rest) k
        = RunningTime.main.watch deploymentName now rest k
    ∧ (∀ before : List WatchEvent,
        (RunningTime.main.watch deploymentName now
            (before ++ ⟨type, .unstructured pod⟩ :: rest) k).seen
          = (RunningTime.main.watch deploymentName now (before ++ rest) k).seen)
    ∧ ∀ (unlabelled : Object), (GetLabels unlabelled).lookup "app" = none →
        RunningTime.main.watch RunningTime.deploymentName now
            (⟨type, .unstructured unlabelled⟩ :: rest) k
          = RunningTime.main.watch RunningTime.deploymentName now rest k := by
  have key : ∀ (d : String) (p : Object), mapIndex (GetLabels p) "app" ≠ d →
      ∀ (l : List WatchEvent) (j : Nat),
        RunningTime.main.watch d now (⟨type, .unstructured p⟩ :: l) j
          = RunningTime.main.watch d now l j := by
    intro d p hp l j
    by_cases hi : type.ignored = true
    · exact watch_ignored d now _ l j hi
    · have hi2 : type.ignored = false := by simpa using hi
      rw [watch_pod d now type p l j hi2, if_neg hp]
  refine ⟨key deploymentName pod hlabel rest k, ?_, ?_⟩
  · intro before
    exact watch_skip_middle deploymentName now _ (key deploymentName pod hlabel) before rest k
  · intro unlabelled hnone
    refine key RunningTime.deploymentName unlabelled ?_ rest k
    simp only [mapIndex, hnone, Option.getD_none]
    decide

/-- C6, two instances: an `Added` event of pod `db-0`, label `app=db` and phase
`Succeeded`, and one of pod `job-1`, without labels and in phase `Succeeded`,
each before the event of a pod of the watched deployment. -/
theorem watch_skips_other_labels_witness :
    RunningTime.main.watch RunningTime.deploymentName secondsClock
        (⟨.Added, .unstructured otherPod⟩
          :: [⟨.Modified, .unstructured (watchedPod "Running")⟩]) 1
      = RunningTime.main.watch RunningTime.deploymentName secondsClock
          [⟨.Modified, .unstructured (watchedPod "Running")⟩] 1
    ∧ RunningTime.main.watch RunningTime.deploymentName secondsClock
        (⟨.Added, .unstructured unlabelledPod⟩
          :: [⟨.Modified, .unstructured (watchedPod "Running")⟩]) 1
      = RunningTime.main.watch RunningTime.deploymentName secondsClock
          [⟨.Modified, .unstructured (watchedPod "Running")⟩] 1 :=
  ⟨(watch_skips_other_labels RunningTime.deploymentName secondsClock .Added otherPod
      [⟨.Modified, .unstructured (watchedPod "Running")⟩] 1 (by decide)).1,
    (watch_skips_other_labels RunningTime.deploymentName secondsClock .Added otherPod
      [⟨.Modified, .unstructured (watchedPod "Running")⟩] 1 (by decide)).2.2
      unlabelledPod rfl⟩

/-- C10: an event of type `Deleted`, `Error` or `Bookmark` leaves the loop as it
was, whatever its object: the loop on the event followed by `rest` is the loop
on `rest`. So what the loop prints for an event sequence, how it ends and how
often it reads the clock are those of the sequence with all such events
removed. -/
theorem watch_ignores_other_types (deploymentName : String) (now : Nat → Time)
    (events : List WatchEvent) (k : Nat) :
    (RunningTime.main.watch deploymentName now events k).seen
        = (RunningTime.main.watch deploymentName now
            (events.filter (fun e => !e.type.ignored)) k).seen
    ∧ ∀ (e : WatchEvent) (rest : List WatchEvent), e.type.ignored = true →
        RunningTime.main.watch deploymentName now (e :: rest) k
          = RunningTime.main.watch deploymentName now rest k := by
  refine ⟨?_, fun e rest h => watch_ignored deploymentName now e rest k h⟩
  induction events generalizing k with
  | nil => rfl
  | cons e rest ih =>
    by_cases hi : e.type.ignored = true
    · rw [watch_ignored _ _ _ _ _ hi, List.filter_cons_of_neg (by simp [hi])]
      exact ih k
    · rw [List.filter_cons_of_pos (by simpa using hi)]
      exact watch_cons_congr deploymentName now e _ _ (fun j => ih j) k

/-! ## The scan of all pods -/

theorem calls_append (a b : List Effect) : calls (a ++ b) = calls a ++ calls b := by
  induction a with
  | nil => rfl
  | cons e rest ih => cases e <;> simp [calls, ih]

theorem getPodStartUpTime_calls (timeParse : String → Option Time) (dynamicClient : Client)
    (ns deploymentName podName : String) :
    calls (getPodStartUpTime timeParse dynamicClient ns deploymentName podName).effects
      = [] := by
  unfold getPodStartUpTime
  simp only
  repeat' split
  all_goals simp [Run.fatal, Run.panic, Run.bind, Run.emit, Run.ret, calls]

theorem main_owner_report_calls (o : Outcome (String × Option GoError))
    (replicaSetName : String) :
    calls (Run.bind (Run.ofOutcome o) fun r =>
        match r.2 with
        | some err =>
          Run.bind (Run.emit (.printOwnerError replicaSetName err)) fun _ => Run.ret r.1
        | none => Run.ret r.1).effects = [] := by
  cases o with
  | ret a =>
    obtain ⟨name, err⟩ := a
    cases err <;> simp [Run.bind, Run.emit, Run.ret, Run.ofOutcome, calls]
  | fatal f e => simp [Run.bind, Run.ofOutcome, calls]
  | panic m => simp [Run.bind, Run.ofOutcome, calls]

theorem main_owner_calls (dynamicClient : Client) (podNamespace : String) :
    ∀ refs : List JSON, calls (main.owner dynamicClient podNamespace refs).effects = [] := by
  intro refs
  induction refs with
  | nil => rfl
  | cons x rest ih =>
    unfold main.owner
    repeat' split
    all_goals first
      | exact ih
      | exact main_owner_report_calls _ _
      | simp [Run.panic, calls]

theorem main_podDeploymentName_calls (dynamicClient : Client) (pod : Object) :
    calls (main.podDeploymentName dynamicClient pod).effects = [] := by
  unfold main.podDeploymentName
  simp only
  split
  · simp [Run.bind, Run.emit, Run.ret, calls]
  · exact main_owner_calls _ _ _

theorem main_owner_other (dynamicClient : Client) (podNamespace : String) :
    ∀ (before rest : List JSON), (∀ x ∈ before, otherKind "ReplicaSet" x = true) →
      main.owner dynamicClient podNamespace (before ++ rest)
        = main.owner dynamicClient podNamespace rest := by
  intro before
  induction before with
  | nil => intro rest _; rfl
  | cons x xs ih =>
    intro rest h
    have hx : otherKind "ReplicaSet" x = true := h x (List.mem_cons_self _ _)
    have hxs : ∀ y ∈ xs, otherKind "ReplicaSet" y = true :=
      fun y hy => h y (List.mem_cons_of_mem _ hy)
    cases x with
    | map m =>
      simp only [otherKind, Bool.not_eq_true'] at hx
      simp only [List.cons_append, main.owner, hx]
      exact ih rest hxs
    | _ => simp [otherKind] at hx

theorem main_podDeploymentName_of_fails (dynamicClient : Client) (pod : Object)
    (h : OwnershipFails dynamicClient pod) :
    (main.podDeploymentName dynamicClient pod).res = .ret "" := by
  unfold main.podDeploymentName
  rcases h with hnf | ⟨before, after, ownerRefMap, replicaSetName, hrefs, hb, hkind, hname, hrs⟩
  · simp [hnf, Run.bind, Run.emit, Run.ret]
  · simp only [hrefs]
    rw [show ((none : Option GoError).isSome || !true) = false from rfl]
    simp only [Bool.false_eq_true, if_false]
    rw [main_owner_other dynamicClient _ before _ hb]
    simp only [main.owner, hkind, hname, ifaceEqString, beq_self_eq_true, if_true]
    rcases hrs with ⟨err, hget⟩ | ⟨replicaSet, hget, hno⟩
    · simp [getDeploymentFromReplicaSet, hget, Run.bind, Run.ofOutcome, Run.emit, Run.ret]
    · obtain ⟨msg, hmsg, _⟩ :=
        getDeploymentFromReplicaSet_errorf dynamicClient _ replicaSetName replicaSet hget hno
      simp [hmsg, Run.bind, Run.ofOutcome, Run.emit, Run.ret]

theorem createAPod_calls (dynamicClient : Client) (ns deploymentName : String) :
    calls (createAPod dynamicClient ns deploymentName).effects = [] := by
  unfold createAPod
  simp only
  repeat' split
  all_goals simp [Run.fatal, Run.panic, Run.bind, Run.emit, Run.ret, calls]

theorem main_of_scan (timeParse : String → Option Time) (dynamicClient : Client)
    (pods : List Object) (isPodCreated : Bool)
    (hcreate : (createAPod dynamicClient "default" "efficientdetnet-deployment").res
      = .ret isPodCreated)
    (hlist : dynamicClient.list podResource "default" = .ok pods) :
    (main timeParse dynamicClient).res = (main.pods timeParse dynamicClient pods).res
    ∧ calls (main timeParse dynamicClient).effects
        = calls (main.pods timeParse dynamicClient pods).effects := by
  unfold main
  simp only [Run.bind, hcreate, getPods, hlist, Run.ret]
  cases isPodCreated <;>
    simp [Run.emit, calls_append, createAPod_calls, calls]

theorem main_pods_run (timeParse : String → Option Time) (dynamicClient : Client) :
    ∀ pods : List Object,
      (∀ pod ∈ pods, ∃ name, (main.podDeploymentName dynamicClient pod).res = .ret name) →
      (∀ pod ∈ pods, ∀ deploymentName, ∃ d,
        (getPodStartUpTime timeParse dynamicClient (GetNamespace pod) deploymentName
          (GetName pod)).res = .ret d) →
      (main.pods timeParse dynamicClient pods).res = .ret ()
      ∧ calls (main.pods timeParse dynamicClient pods).effects
          = pods.map (fun pod =>
              (GetNamespace pod, main.ownerName dynamicClient pod, GetName pod)) := by
  intro pods
  induction pods with
  | nil => intro _ _; exact ⟨rfl, rfl⟩
  | cons pod rest ih =>
    intro howner hready
    obtain ⟨name, hname⟩ := howner pod (List.mem_cons_self _ _)
    obtain ⟨d, hd⟩ := hready pod (List.mem_cons_self _ _) name
    obtain ⟨ih1, ih2⟩ := ih (fun p hp => howner p (List.mem_cons_of_mem _ hp))
      (fun p hp => hready p (List.mem_cons_of_mem _ hp))
    constructor
    · simp only [main.pods, Run.bind, hname, Run.emit, hd]
      exact ih1
    · simp only [main.pods, Run.bind, hname, Run.emit, hd, calls_append,
        main_podDeploymentName_calls, getPodStartUpTime_calls, List.nil_append, calls,
        List.map_cons, List.cons_append, ih2, main.ownerName]

/-- The scan where the missing-milestone defect of `getPodStartUpTime` does not
strike: when, for every pod of the list, the look-up of its owner returns (with
a name, or with the empty name after a failed resolution) and
`getPodStartUpTime` returns, the loop over the listed pods runs to its end and
calls `getPodStartUpTime` once for every pod, in list order, with the pod's
namespace, the deployment name found for it, and its name. For a pod whose
ownership resolution fails (no `ownerReferences`, a ReplicaSet that cannot be
fetched, a ReplicaSet without a `Deployment` owner reference) that deployment
name is empty, and the pods after it are processed all the same: a failed
ownership resolution never ends the scan by itself. So for `main`, when its
scale-up returns and the list call gives these pods. -/
theorem scan_calls_every_pod (timeParse : String → Option Time) (dynamicClient : Client)
    (pods : List Object)
    (howner : ∀ pod ∈ pods, ∃ name, (main.podDeploymentName dynamicClient pod).res = .ret name)
    (hready : ∀ pod ∈ pods, ∀ deploymentName, ∃ d,
      (getPodStartUpTime timeParse dynamicClient (GetNamespace pod) deploymentName
        (GetName pod)).res = .ret d) :
    (main.pods timeParse dynamicClient pods).res = .ret ()
    ∧ calls (main.pods timeParse dynamicClient pods).effects
        = pods.map (fun pod => (GetNamespace pod, main.ownerName dynamicClient pod, GetName pod))
    ∧ (∀ pod ∈ pods, OwnershipFails dynamicClient pod → main.ownerName dynamicClient pod = "")
    ∧ ∀ isPodCreated,
        (createAPod dynamicClient "default" "efficientdetnet-deployment").res
          = .ret isPodCreated →
        dynamicClient.list podResource "default" = .ok pods →
        (main timeParse dynamicClient).res = .ret ()
        ∧ calls (main timeParse dynamicClient).effects
            = pods.map (fun pod =>
                (GetNamespace pod, main.ownerName dynamicClient pod, GetName pod)) := by
  obtain ⟨hres, hcalls⟩ := main_pods_run timeParse dynamicClient pods howner hready
  refine ⟨hres, hcalls, ?_, ?_⟩
  · intro pod _ hfail
    simp [main.ownerName, main_podDeploymentName_of_fails dynamicClient pod hfail]
  · intro isPodCreated hcreate hlist
    obtain ⟨h1, h2⟩ := main_of_scan timeParse dynamicClient pods isPodCreated hcreate hlist
    exact ⟨h1.trans hres, h2.trans hcalls⟩

/-- An instance of the scan with ownership failures only: four listed pods,
the first owned by deployment `web`; the ReplicaSet of the second cannot be
fetched, that of the third has no `Deployment` owner reference, the fourth has
no `ownerReferences`. All have both milestones, and all four are processed, the
last three with an empty deployment name. -/
theorem scan_calls_every_pod_witness :
    scanClient.list podResource "default"
        = .ok [podOwned, podOfMissingReplicaSet, podOfStrayReplicaSet, podSolo]
    ∧ OwnershipFails scanClient podOfMissingReplicaSet
    ∧ OwnershipFails scanClient podOfStrayReplicaSet
    ∧ OwnershipFails scanClient podSolo
    ∧ (main.pods parseUTC scanClient
        [podOwned, podOfMissingReplicaSet, podOfStrayReplicaSet, podSolo]).res = .ret ()
    ∧ calls (main.pods parseUTC scanClient
        [podOwned, podOfMissingReplicaSet, podOfStrayReplicaSet, podSolo]).effects
        = [("default", "web", "web-a"), ("default", "", "gone-b"),
           ("default", "", "stray-c"), ("default", "", "solo-d")]
    ∧ (main parseUTC scanClient).res = .ret ()
    ∧ calls (main parseUTC scanClient).effects
        = [("default", "web", "web-a"), ("default", "", "gone-b"),
           ("default", "", "stray-c"), ("default", "", "solo-d")] := by
  have h := scan_calls_every_pod parseUTC scanClient
    [podOwned, podOfMissingReplicaSet, podOfStrayReplicaSet, podSolo]
    (by
      intro pod hp
      simp only [List.mem_cons, List.mem_singleton, List.not_mem_nil, or_false] at hp
      rcases hp with rfl | rfl | rfl | rfl <;> exact ⟨_, rfl⟩)
    (by
      intro pod hp deploymentName
      simp only [List.mem_cons, List.mem_singleton, List.not_mem_nil, or_false] at hp
      rcases hp with rfl | rfl | rfl | rfl <;> exact ⟨_, rfl⟩)
  refine ⟨rfl, ?_, ?_, Or.inl rfl, h.1, h.2.1.trans rfl, (h.2.2.2 true rfl rfl).1,
    (h.2.2.2 true rfl rfl).2.trans rfl⟩
  · exact Or.inr ⟨[], [], _, "gone-1234", rfl, by decide, rfl, rfl, Or.inl ⟨_, rfl⟩⟩
  · exact Or.inr ⟨[], [], _, "stray", rfl, by decide, rfl, rfl,
      Or.inr ⟨replicaSetStray, rfl, Or.inr ⟨_, rfl, by decide⟩⟩⟩

/-- C7 is not met by the code. The claim: when the ownership resolution of a
listed pod fails, the scan still calls the readiness computation once for every
listed pod. The code, when the list call returns pods `new-e` and `web-a`, where
`new-e` has no `ownerReferences` (its ownership resolution fails) and no `Ready`
condition yet: the scan calls `getPodStartUpTime` for `new-e` with an empty
deployment name, that call ends the process in
`log.Fatalf("pod has no Ready condition")`, and `web-a` is never processed,
against the comment of controller3.go:216 (the start-up times of ALL pods). The
scan of `web-a` alone returns, with its seven seconds. -/
theorem scan_stops_at_pending_pod :
    pendingClient.list podResource "default" = .ok [podPending, podOwned]
    ∧ OwnershipFails pendingClient podPending
    ∧ main.pods parseUTC pendingClient [podPending, podOwned]
        = ⟨[.printOwnerRefsNotFound, .callGetPodStartUpTime "default" "" "new-e"],
            .fatal "pod has no Ready condition" none⟩
    ∧ (main parseUTC pendingClient).res = .fatal "pod has no Ready condition" none
    ∧ calls (main parseUTC pendingClient).effects = [("default", "", "new-e")]
    ∧ main.pods parseUTC pendingClient [podOwned]
        = ⟨[.callGetPodStartUpTime "default" "web" "web-a", .printTimeDiff 7000000000],
            .ret ()⟩ :=
  ⟨rfl, Or.inl rfl, rfl, rfl, rfl, rfl⟩

/-- C10, an instance: an `Error` event that carries a status, a `Deleted` event
of a pod of the watched deployment in phase `Succeeded` and a `Bookmark` event
print nothing and do not end the loop; the event after them is handled. -/
theorem watch_ignores_other_types_witness :
    RunningTime.main.watch RunningTime.deploymentName secondsClock
        [⟨.Error, .status "too old resource version"⟩,
         ⟨.Deleted, .unstructured (watchedPod "Succeeded")⟩,
         ⟨.Bookmark, .unstructured (watchedPod "Succeeded")⟩,
         ⟨.Modified, .unstructured (watchedPod "Running")⟩] 1
      = ⟨[.printObservation "efficientdetnet-deployment-7559b4b9cd-k76mr"
            (secondsClock 1) "Running"], .ret (), [], 2⟩ :=
  ((watch_ignores_other_types RunningTime.deploymentName secondsClock
      [⟨.Modified, .unstructured (watchedPod "Running")⟩] 1).2
    ⟨.Error, .status "too old resource version"⟩ _ rfl).trans rfl

end Kubetest
